import Mathlib

/-!
# Forkify: the state store (`src/js/model.js`), the pagination view
(`src/js/views/paginationView.js`) and the incremental renderer (`src/js/views/view.js`)

A shallow embedding of the JavaScript sources.  Module state becomes an explicit record that every
operation receives and returns; an operation that can throw returns its outcome next to the
state it leaves behind, because a throwing operation may already have written to the state.

Numbers.  JavaScript numbers are modelled by exact rationals, plus one extra value standing for
the non-finite numbers (`NaN`, `Infinity`, `-Infinity`) where the code can produce them; binary
rounding is not modelled.  Page numbers and array indices are integers.
-/

set_option autoImplicit false

namespace Forkify

/-! ## JavaScript values used by the store -/

/-- A JavaScript number: an exact rational, or a non-finite value (`NaN`, `Infinity`,
`-Infinity`; the three are not told apart). -/
inductive JSNumber where
  | nonfinite
  | fin (q : ℚ)
  deriving DecidableEq, Repr

/-- The expression `(x * n) / s` for a number `x` and finite `n`, `s`.  A non-finite `x` stays
non-finite, and dividing by zero gives `Infinity`, `-Infinity` or `NaN`. -/
def JSNumber.mulDiv (x : JSNumber) (n s : ℚ) : JSNumber :=
  match x with
  | .nonfinite => .nonfinite
  | .fin q => if s = 0 then .nonfinite else .fin (q * n / s)

/-- The relative index of `Array.prototype.slice`: a negative index counts from the end, and the
result is clamped to `[0, len]`. -/
def sliceIndex (len : Nat) (i : Int) : Nat :=
  if i < 0 then (len + i).toNat else min i.toNat len

/-- The call `xs.slice(start, end)` on integer arguments. -/
def slice {α : Type} (xs : List α) (start stop : Int) : List α :=
  let k := sliceIndex xs.length start
  let final := sliceIndex xs.length stop
  (xs.drop k).take (final - k)

/-! ## Data model (`state` in model.js) -/

/-- One ingredient; `quantity` is `null` (here `none`) or a number. -/
structure Ingredient where
  quantity : Option JSNumber
  unit : String
  description : String
  deriving DecidableEq, Repr

/-- The recipe object built by `createRecipeObject`.  The properties the operations read on an
object that may still be the empty object `{}` of the initial state are optional: `id`,
`ingredients` and `bookmarked` are `none` when the property is `undefined`. -/
structure Recipe where
  id : Option String
  title : String
  publisher : String
  sourceUrl : String
  image : String
  servings : ℚ
  cookingTime : ℚ
  ingredients : Option (List Ingredient)
  key : Option String
  bookmarked : Option Bool
  deriving DecidableEq, Repr

/-- The empty object `{}` that `state.recipe` holds before any recipe is loaded.  Its other
properties, which no operation reads before a recipe is loaded, have placeholder values. -/
def emptyRecipe : Recipe :=
  { id := none, title := "", publisher := "", sourceUrl := "", image := "", servings := 0,
    cookingTime := 0, ingredients := none, key := none, bookmarked := none }

/-- An entry of `state.search.results`. -/
structure RecipeSummary where
  id : String
  title : String
  publisher : String
  image : String
  key : Option String
  deriving DecidableEq, Repr

/-- The object `state.search`. -/
structure Search where
  query : String
  results : List RecipeSummary
  currentPage : Int
  resultsPerPage : Int
  deriving DecidableEq, Repr

/-- An entry of the array `state.bookmarks`.  `addBookmark` pushes the object `state.recipe`
itself, so an entry is either that very object (`active`: it changes whenever `state.recipe` is
written through) or an object of its own (`stored`). -/
inductive Bookmark where
  | active
  | stored (r : Recipe)
  deriving DecidableEq, Repr

/-- The module-level `state` object. -/
structure State where
  recipe : Recipe
  search : Search
  bookmarks : List Bookmark
  deriving DecidableEq, Repr

/-- The recipe object an entry of `state.bookmarks` denotes. -/
def Bookmark.deref (st : State) : Bookmark → Recipe
  | .active => st.recipe
  | .stored r => r

/-- The array `state.bookmarks` as the recipe objects it holds. -/
def State.bookmarkObjects (st : State) : List Recipe :=
  st.bookmarks.map (Bookmark.deref st)

/-- The assignment `state.recipe = r` of a new object: the entries of `state.bookmarks` that
were the old object keep denoting the old object. -/
def State.setRecipe (st : State) (r : Recipe) : State :=
  { st with
    recipe := r
    bookmarks := st.bookmarks.map (fun b => Bookmark.stored (b.deref st)) }

/-- The constants of `config.js`. -/
structure Config where
  API_URL : String
  RESULTS_PER_PAGE : Int
  KEY : String

/-- The initial value of `state` (model.js, lines 7-16). -/
def state (cfg : Config) : State :=
  { recipe := emptyRecipe
    search := { query := "", results := [], currentPage := 1,
                resultsPerPage := cfg.RESULTS_PER_PAGE }
    bookmarks := [] }

/-! ## Pagination of the search results -/

/-- The function `getPageSearchResults(page = state.search.currentPage)`: returns the page and
the state it leaves.  `none` is the call without an argument. -/
def getPageSearchResults (st : State) (page : Option Int) : List RecipeSummary × State :=
  let page := page.getD st.search.currentPage
  let st := { st with search := { st.search with currentPage := page } }
  let start := (page - 1) * st.search.resultsPerPage
  let stop := page * st.search.resultsPerPage
  (slice st.search.results start stop, st)

/-! ## Servings -/

/-- The body of the `forEach` callback of `updateServings`: `null * n / s` is `0 * n / s`. -/
def scaleIngredient (newServings servings : ℚ) (ingredient : Ingredient) : Ingredient :=
  { ingredient with
    quantity := some (((ingredient.quantity.getD (.fin 0)).mulDiv newServings servings)) }

/-- The function `updateServings(newServings)`.  `state.recipe.ingredients.forEach` throws a
`TypeError` when the recipe has no ingredient list, before anything is written. -/
def updateServings (st : State) (newServings : ℚ) : Except String Unit × State :=
  match st.recipe.ingredients with
  | none => (.error "TypeError", st)
  | some ingredients =>
    let scaled := ingredients.map (scaleIngredient newServings st.recipe.servings)
    (.ok (), { st with recipe := { st.recipe with ingredients := some scaled,
                                                  servings := newServings } })

/-! ## Bookmarks and their durable entry -/

/-- The host functions `JSON.stringify` and `JSON.parse` on the values the store passes to them:
the text of one recipe object, and the parser (`none` when `JSON.parse` throws). -/
structure JSON where
  stringifyRecipe : Recipe → String
  parse : String → Option (List Recipe)

/-- The call `JSON.stringify(array)`: the elements' texts, separated by commas, in brackets. -/
def JSON.stringify (J : JSON) (l : List Recipe) : String :=
  "[" ++ ",".intercalate (l.map J.stringifyRecipe) ++ "]"

/-- The payload `uploadRecipe` hands to the Gateway. -/
structure Payload where
  title : Option String
  source_url : Option String
  image_url : Option String
  publisher : Option String
  cooking_time : JSNumber
  servings : JSNumber
  ingredients : List Ingredient
  deriving DecidableEq, Repr

/-- One call `AJAX(url, uploadData)`. -/
structure Request where
  url : String
  uploadData : Option Payload
  deriving DecidableEq, Repr

/-- The recipe object of a response, `data.recipe`. -/
structure ApiRecipe where
  id : String
  title : String
  publisher : String
  source_url : String
  image_url : String
  servings : ℚ
  cooking_time : ℚ
  ingredients : List Ingredient
  key : Option String
  deriving DecidableEq, Repr

/-- One element of `data.recipes` in the response to a search. -/
structure ApiSummary where
  id : String
  title : String
  publisher : String
  image_url : String
  key : Option String
  deriving DecidableEq, Repr

/-- The decoded body `AJAX` resolves to, as far as the store reads it. -/
inductive Body where
  | recipe (r : ApiRecipe)
  | recipes (rs : List ApiSummary)
  deriving DecidableEq, Repr

/-- The Network Gateway `AJAX` of helpers.js, an external collaborator: it answers a request
with a decoded body or rejects with an error message. -/
abbrev Gateway := Request → Except String Body

/-- The store together with the two things outside it that its operations touch: the entry
`bookmarks` of `localStorage` (`none` when absent) and the calls made to the Gateway so far. -/
structure Store where
  state : State
  storage : Option String
  requests : List Request

/-- The function `persistBookmarks`; `localStorage.setItem` is taken to succeed. -/
def persistBookmarks (J : JSON) (s : Store) : Store :=
  { s with storage := some (J.stringify s.state.bookmarkObjects) }

/-- The function `addBookmark`: pushes the object `state.recipe`, sets its flag, persists. -/
def addBookmark (J : JSON) (s : Store) : Store :=
  let st := { s.state with bookmarks := s.state.bookmarks ++ [Bookmark.active] }
  let st := { st with recipe := { st.recipe with bookmarked := some true } }
  persistBookmarks J { s with state := st }

/-- The call `xs.findIndex(p)`: the first index whose element satisfies `p`, or `-1`. -/
def findIndex {α : Type} (p : α → Bool) : List α → Int
  | [] => -1
  | x :: xs => if p x then 0 else
      let i := findIndex p xs
      if i < 0 then -1 else i + 1

/-- The call `xs.splice(start, deleteCount)` as the array it leaves: a negative `start` counts
from the end. -/
def splice {α : Type} (xs : List α) (start deleteCount : Int) : List α :=
  let k := sliceIndex xs.length start
  let n := min (max deleteCount 0).toNat (xs.length - k)
  xs.take k ++ xs.drop (k + n)

/-- The function `deleteBookmark(id)`; `id` is the value passed, `none` for `undefined`. -/
def deleteBookmark (J : JSON) (s : Store) (id : Option String) : Store :=
  let index := findIndex (fun el => decide ((Bookmark.deref s.state el).id = id)) s.state.bookmarks
  let st := { s.state with bookmarks := splice s.state.bookmarks index 1 }
  let st := if id = st.recipe.id then
      { st with recipe := { st.recipe with bookmarked := some false } }
    else st
  persistBookmarks J { s with state := st }

/-- The function `init`: reads the entry; `if (storage)` is false for an absent entry and for
the empty text.  `JSON.parse` may throw. -/
def init (J : JSON) (s : Store) : Except String Unit × Store :=
  match s.storage with
  | none => (.ok (), s)
  | some storage =>
    if storage = "" then (.ok (), s)
    else match J.parse storage with
      | none => (.error "SyntaxError", s)
      | some l => (.ok (), { s with state := { s.state with bookmarks := l.map Bookmark.stored } })

/-- The store of a freshly loaded module, before `init()` runs. -/
def freshStore (cfg : Config) (storage : Option String) : Store :=
  { state := state cfg, storage := storage, requests := [] }

/-! ## Loading from the Gateway -/

/-- The function `createRecipeObject`; the property `key` is copied only when it is truthy. -/
def createRecipeObject (recipe : ApiRecipe) : Recipe :=
  { id := some recipe.id
    title := recipe.title
    publisher := recipe.publisher
    sourceUrl := recipe.source_url
    image := recipe.image_url
    servings := recipe.servings
    cookingTime := recipe.cooking_time
    ingredients := some recipe.ingredients
    key := recipe.key.filter (fun k => k ≠ "")
    bookmarked := none }

/-- The function `loadRecipe(id)`.  A rejected request, or a body without `data.recipe`, throws
before `state.recipe` is assigned. -/
def loadRecipe (cfg : Config) (ajax : Gateway) (s : Store) (id : String) :
    Except String Unit × Store :=
  let request : Request := { url := cfg.API_URL ++ id ++ "?key=" ++ cfg.KEY, uploadData := none }
  let s := { s with requests := s.requests ++ [request] }
  match ajax request with
  | .error err => (.error err, s)
  | .ok (.recipes _) => (.error "TypeError", s)
  | .ok (.recipe recipeData) =>
    let st := s.state.setRecipe (createRecipeObject recipeData)
    let st :=
      if st.bookmarks.any (fun bookmark => decide ((bookmark.deref st).id = some id)) then
        { st with recipe := { st.recipe with bookmarked := some true } }
      else
        { st with recipe := { st.recipe with bookmarked := some false } }
    (.ok (), { s with state := st })

/-- The callback that `loadSearchResults` maps over `data.recipes`. -/
def toSummary (recipe : ApiSummary) : RecipeSummary :=
  { id := recipe.id
    title := recipe.title
    publisher := recipe.publisher
    image := recipe.image_url
    key := recipe.key.filter (fun k => k ≠ "") }

/-- The function `loadSearchResults(query)`: the query is written before the request is made. -/
def loadSearchResults (cfg : Config) (ajax : Gateway) (s : Store) (query : String) :
    Except String Unit × Store :=
  let st := { s.state with search := { s.state.search with query := query } }
  let request : Request :=
    { url := cfg.API_URL ++ "?search=" ++ query ++ "&key=" ++ cfg.KEY, uploadData := none }
  let s := { s with state := st, requests := s.requests ++ [request] }
  match ajax request with
  | .error err => (.error err, s)
  | .ok (.recipe _) => (.error "TypeError", s)
  | .ok (.recipes recipes) =>
    let st := { s.state with search := { s.state.search with results := recipes.map toSummary } }
    let st := { st with search := { st.search with currentPage := 1 } }
    (.ok (), { s with state := st })

/-! ## Text functions of the host used by `uploadRecipe` -/

/-- White space and line terminators, the characters `String.prototype.trim` strips. -/
def isWhiteSpace (c : Char) : Bool :=
  let n := c.toNat
  n = 0x9 || n = 0xA || n = 0xB || n = 0xC || n = 0xD || n = 0x20 || n = 0xA0 || n = 0x1680 ||
  (0x2000 ≤ n && n ≤ 0x200A) || n = 0x2028 || n = 0x2029 || n = 0x202F || n = 0x205F ||
  n = 0x3000 || n = 0xFEFF

/-- The method `trim` on the characters of a string. -/
def trimChars (cs : List Char) : List Char :=
  ((cs.dropWhile isWhiteSpace).reverse.dropWhile isWhiteSpace).reverse

/-- The call `s.trim()`. -/
def trim (s : String) : String := String.mk (trimChars s.data)

/-- The method `split` with a one-character separator, on the characters of a string. -/
def splitChars (sep : Char) : List Char → List (List Char)
  | [] => [[]]
  | c :: cs =>
    if c = sep then [] :: splitChars sep cs
    else match splitChars sep cs with
      | [] => [[c]]
      | t :: ts => (c :: t) :: ts

/-- The call `s.split(',')`. -/
def split (s : String) (sep : Char) : List String :=
  (splitChars sep s.data).map String.mk

/-- The call `s.startsWith(t)`. -/
def startsWith (s t : String) : Bool := t.data.isPrefixOf s.data

/-- The value of a digit in the given base. -/
def digitValue (base : Nat) (c : Char) : Option Nat :=
  let n := c.toNat
  let v :=
    if 48 ≤ n ∧ n ≤ 57 then some (n - 48)
    else if 97 ≤ n ∧ n ≤ 102 then some (n - 87)
    else if 65 ≤ n ∧ n ≤ 70 then some (n - 55)
    else none
  v.filter (fun d => d < base)

/-- A non-empty run of digits in the given base. -/
def parseDigits (base : Nat) (cs : List Char) : Option Nat :=
  if cs = [] then none
  else cs.foldl (fun acc c => acc.bind (fun a => (digitValue base c).map (fun d => base * a + d)))
    (some 0)

/-- The mantissa of a `StrUnsignedDecimalLiteral`: `digits`, `digits.`, `digits.digits` or
`.digits`. -/
def parseMantissa (cs : List Char) : Option ℚ :=
  match splitChars '.' cs with
  | [i] => (parseDigits 10 i).map (fun a => (a : ℚ))
  | [i, f] =>
    if i = [] ∧ f = [] then none
    else
      (if i = [] then some 0 else parseDigits 10 i).bind fun a =>
      (if f = [] then some 0 else parseDigits 10 f).map fun b =>
        (a : ℚ) + (b : ℚ) / (10 : ℚ) ^ f.length
  | _ => none

/-- The digits of an `ExponentPart`, with their sign. -/
def parseExponent (cs : List Char) : Option Int :=
  match cs with
  | '+' :: ds => (parseDigits 10 ds).map (fun k => (k : Int))
  | '-' :: ds => (parseDigits 10 ds).map (fun k => -(k : Int))
  | ds => (parseDigits 10 ds).map (fun k => (k : Int))

/-- A `StrUnsignedDecimalLiteral`: `Infinity`, or a mantissa with an optional exponent. -/
def parseUnsignedDecimal (cs : List Char) : Option JSNumber :=
  if cs = "Infinity".data then some .nonfinite
  else
    match cs.span (fun c => c ≠ 'e' && c ≠ 'E') with
    | (m, []) => (parseMantissa m).map JSNumber.fin
    | (m, _ :: ex) =>
      (parseMantissa m).bind fun q =>
      (parseExponent ex).map fun k => JSNumber.fin (q * (10 : ℚ) ^ k)

/-- The negation of a number. -/
def JSNumber.neg : JSNumber → JSNumber
  | .nonfinite => .nonfinite
  | .fin q => .fin (-q)

/-- A `StrNumericLiteral`: a signed decimal literal or an unsigned binary, octal or hexadecimal
integer literal. -/
def parseNumeric (cs : List Char) : Option JSNumber :=
  match cs with
  | '0' :: 'x' :: ds | '0' :: 'X' :: ds => (parseDigits 16 ds).map (fun k => .fin k)
  | '0' :: 'o' :: ds | '0' :: 'O' :: ds => (parseDigits 8 ds).map (fun k => .fin k)
  | '0' :: 'b' :: ds | '0' :: 'B' :: ds => (parseDigits 2 ds).map (fun k => .fin k)
  | '+' :: ds => parseUnsignedDecimal ds
  | '-' :: ds => (parseUnsignedDecimal ds).map JSNumber.neg
  | ds => parseUnsignedDecimal ds

/-- The unary plus `+s` on a string (`StringToNumber`): surrounding white space is ignored, the
empty text is `0`, and a text that is no numeric literal is `NaN`. -/
def toNumber (s : String) : JSNumber :=
  let cs := trimChars s.data
  if cs = [] then .fin 0 else (parseNumeric cs).getD .nonfinite

/-- The unary plus on a property that may be `undefined`: `+undefined` is `NaN`. -/
def toNumberProp : Option String → JSNumber
  | none => .nonfinite
  | some s => toNumber s

/-! ## Uploading a recipe -/

/-- The message `uploadRecipe` throws on a malformed ingredient field. -/
def formatError : String := "Wrong ingredient format! Please use the correct format."

/-- The expression `ing[1].split(',').map(el => el.trim())`. -/
def ingArr (value : String) : List String :=
  (split value ',').map trim

/-- The `map` callback of `uploadRecipe` on one entry. -/
def parseIngredient (ing : String × String) : Except String Ingredient :=
  match ingArr ing.2 with
  | [quantity, unit, description] =>
    .ok { quantity := if quantity ≠ "" then some (toNumber quantity) else none,
          unit := unit, description := description }
  | _ => .error formatError

/-- The entries `uploadRecipe` keeps: the name starts with `ingredient`, the value is not
empty. -/
def ingredientEntries (newRecipe : List (String × String)) : List (String × String) :=
  newRecipe.filter (fun entry => startsWith entry.1 "ingredient" && entry.2 ≠ "")

/-- The method `map` with a callback that may throw: the callback runs on the elements in
order, and the first exception ends the call. -/
def mapThrowing {α β : Type} (f : α → Except String β) : List α → Except String (List β)
  | [] => .ok []
  | x :: xs =>
    match f x with
    | .error err => .error err
    | .ok y =>
      match mapThrowing f xs with
      | .error err => .error err
      | .ok ys => .ok (y :: ys)

/-- The ingredient list of `uploadRecipe`. -/
def parseIngredients (newRecipe : List (String × String)) : Except String (List Ingredient) :=
  mapThrowing parseIngredient (ingredientEntries newRecipe)

/-- The function `uploadRecipe(newRecipe)`; `newRecipe` is given by `Object.entries(newRecipe)`.
The ingredients are parsed before the request is made, and the response replaces the active
recipe, which is then bookmarked. -/
def uploadRecipe (cfg : Config) (J : JSON) (ajax : Gateway) (s : Store)
    (newRecipe : List (String × String)) : Except String Unit × Store :=
  match parseIngredients newRecipe with
  | .error err => (.error err, s)
  | .ok ingredients =>
    let recipe : Payload :=
      { title := newRecipe.lookup "title"
        source_url := newRecipe.lookup "sourceUrl"
        image_url := newRecipe.lookup "image"
        publisher := newRecipe.lookup "publisher"
        cooking_time := toNumberProp (newRecipe.lookup "cookingTime")
        servings := toNumberProp (newRecipe.lookup "servings")
        ingredients := ingredients }
    let request : Request := { url := cfg.API_URL ++ "?key=" ++ cfg.KEY, uploadData := some recipe }
    let s := { s with requests := s.requests ++ [request] }
    match ajax request with
    | .error err => (.error err, s)
    | .ok (.recipes _) => (.error "TypeError", s)
    | .ok (.recipe recipeData) =>
      (.ok (), addBookmark J { s with state := s.state.setRecipe (createRecipeObject recipeData) })

/-! ## The pagination view (paginationView.js) -/

/-- The value of `Math.ceil(results.length / resultsPerPage)`: dividing by zero gives `NaN`
(no results) or `Infinity`. -/
inductive PageCount where
  | nan
  | infinity
  | fin (n : Int)
  deriving DecidableEq, Repr

/-- The constant `numPages` of `_generateMarkup`. -/
def numPages (data : Search) : PageCount :=
  if data.resultsPerPage = 0 then
    if data.results.length = 0 then .nan else .infinity
  else .fin ⌈(data.results.length : ℚ) / (data.resultsPerPage : ℚ)⌉

/-- The comparison `currentPage === numPages`. -/
def PageCount.isPage (n : PageCount) (currentPage : Int) : Bool :=
  match n with
  | .fin k => currentPage = k
  | _ => false

/-- The comparison `numPages > 1`. -/
def PageCount.moreThanOne : PageCount → Bool
  | .fin k => 1 < k
  | .infinity => true
  | .nan => false

/-- The comparison `currentPage < numPages`. -/
def PageCount.isAfter (n : PageCount) (currentPage : Int) : Bool :=
  match n with
  | .fin k => currentPage < k
  | .infinity => true
  | .nan => false

/-- The two button templates. -/
inductive Direction where
  | prev
  | next
  deriving DecidableEq, Repr

/-- The `button` element a button template describes: its `data-goto` attribute, which of the
two templates it is (class `pagination__btn--prev` or `pagination__btn--next`) and the page
number of its label `Page N`. -/
structure Button where
  direction : Direction
  goto : Int
  label : Int
  deriving DecidableEq, Repr

/-- The method `_generatePrevButtonMarkup`. -/
def _generatePrevButtonMarkup (data : Search) : Button :=
  { direction := .prev, goto := data.currentPage - 1, label := data.currentPage - 1 }

/-- The method `_generateNextButtonMarkup`. -/
def _generateNextButtonMarkup (data : Search) : Button :=
  { direction := .next, goto := data.currentPage + 1, label := data.currentPage + 1 }

/-- The method `_generateMarkup` of the pagination view, as the buttons of the markup it
returns, in order. -/
def _generateMarkup (data : Search) : List Button :=
  let currentPage := data.currentPage
  let numPages := numPages data
  if currentPage = 1 ∧ numPages.moreThanOne then
    [_generateNextButtonMarkup data]
  else if numPages.isPage currentPage ∧ numPages.moreThanOne then
    [_generatePrevButtonMarkup data]
  else if numPages.isAfter currentPage then
    [_generatePrevButtonMarkup data, _generateNextButtonMarkup data]
  else
    []

/-- The text of a button template; `icons` is the imported address of the icon file. -/
def Button.markup (icons : String) (b : Button) : String :=
  match b.direction with
  | .prev =>
    "\n      <button data-goto=\"" ++ toString b.goto ++
    "\" class=\"btn--inline pagination__btn--prev\">\n        <svg class=\"search__icon\">\n" ++
    "          <use href=\"" ++ icons ++ "#icon-arrow-left\"></use>\n        </svg>\n" ++
    "        <span>Page " ++ toString b.label ++ "</span>\n      </button>\n    "
  | .next =>
    "\n      <button data-goto=\"" ++ toString b.goto ++
    "\" class=\"btn--inline pagination__btn--next\">\n        <span>Page " ++ toString b.label ++
    "</span>\n        <svg class=\"search__icon\">\n" ++
    "          <use href=\"" ++ icons ++ "#icon-arrow-right\"></use>\n        </svg>\n" ++
    "      </button>\n    "

/-- The string `_generateMarkup` returns: the templates of its buttons, separated by a line
break. -/
def markupText (icons : String) (data : Search) : String :=
  "\n".intercalate ((_generateMarkup data).map (Button.markup icons))

/-! ## The incremental renderer (`View.update` in view.js) -/

/-- A node of the fragment parsed from the new markup.  The fragment is never written to. -/
inductive Node where
  | element (tag : String) (attributes : List (String × String)) (children : List Node)
  | text (data : String)
  | comment (data : String)
  deriving Repr

/-- A child of an element of the render target: a text or comment node of its own, or another
element, named by its position in `currElements`. -/
inductive Child where
  | element (index : Nat)
  | text (data : String)
  | comment (data : String)
  deriving DecidableEq, Repr

/-- An element of the render target, as the element object stands at some moment. -/
structure Element where
  tag : String
  attributes : List (String × String)
  children : List Child
  deriving DecidableEq, Repr

/-- The array `currElements` with the present content of each of its element objects.  The
array is built once; the loop of `update` writes to the objects it holds. -/
abbrev Heap := List Element

mutual
/-- The text a node contributes to the `textContent` of an element above it: the data of the
text nodes below, in tree order; comments contribute nothing. -/
def descendantText : Node → String
  | .element _ _ children => descendantTextList children
  | .text data => data
  | .comment _ => ""
/-- The texts of a list of nodes, concatenated. -/
def descendantTextList : List Node → String
  | [] => ""
  | n :: ns => descendantText n ++ descendantTextList ns
end

/-- The getter `newElement.textContent`. -/
def Node.textContent (n : Node) : String := descendantText n

/-- The expression `newElement?.firstChild?.nodeValue?.trim()`; `none` is `undefined`.  The
`nodeValue` of an element is `null`, that of a text or comment node is its data. -/
def firstChildText : Node → Option String
  | .element _ _ (.text data :: _) => some (trim data)
  | .element _ _ (.comment data :: _) => some (trim data)
  | _ => none

/-- Equality of attribute lists in `isEqualNode`: as many attributes, and each one of the first
list is in the second. -/
def sameAttributes (a b : List (String × String)) : Bool :=
  a.length = b.length && a.all (fun x => b.contains x)

mutual
/-- The call `node.isEqualNode(other)` for a node of the new fragment and a child of an element
of the render target. -/
def isEqualChild (h : Heap) : Node → Child → Bool
  | .element tag attributes children, .element index =>
    match h[index]? with
    | none => false
    | some el =>
      tag = el.tag && sameAttributes attributes el.attributes &&
        isEqualChildren h children el.children
  | .text data, .text data2 => data = data2
  | .comment data, .comment data2 => data = data2
  | _, _ => false
/-- Pairwise equality of two child lists of the same length. -/
def isEqualChildren (h : Heap) : List Node → List Child → Bool
  | [], [] => true
  | n :: ns, c :: cs => isEqualChild h n c && isEqualChildren h ns cs
  | _, _ => false
end

/-- The call `newElement.isEqualNode(currElement)` with `currElement = currElements[i]`; it is
`false` when `currElements[i]` is `undefined`. -/
def isEqualNode (h : Heap) (newElement : Node) (i : Nat) : Bool :=
  isEqualChild h newElement (.element i)

mutual
/-- The elements in and below a node, in document order. -/
def elementsOf : Node → List Node
  | .element tag attributes children =>
    .element tag attributes children :: elementsOfList children
  | _ => []
/-- The elements in and below the nodes of a list, in document order. -/
def elementsOfList : List Node → List Node
  | [] => []
  | n :: ns => elementsOf n ++ elementsOfList ns
end

/-- The call `newDOM.querySelectorAll('*')` on the fragment with the given top-level nodes. -/
def querySelectorAll (newDOM : List Node) : List Node := elementsOfList newDOM

/-- The attribute list of a node (empty for a node that is no element). -/
def Node.attributes : Node → List (String × String)
  | .element _ attributes _ => attributes
  | _ => []

/-- The setter `el.textContent = s`: all children are replaced by one text node, or by nothing
when `s` is empty. -/
def Element.setTextContent (el : Element) (s : String) : Element :=
  { el with children := if s = "" then [] else [Child.text s] }

/-- The call `el.setAttribute(name, value)`: an attribute of that name gets the value, otherwise
the attribute is appended.  Names are compared as the elements store them. -/
def Element.setAttribute (el : Element) (attr : String × String) : Element :=
  { el with
    attributes :=
      if el.attributes.any (fun a => a.1 = attr.1) then
        el.attributes.map (fun a => if a.1 = attr.1 then attr else a)
      else el.attributes ++ [attr] }

/-- The body of the `forEach` callback of `update` for the pair `(newElement, i)`.  Writing to
`currElements[i]` when it is `undefined` throws a `TypeError`. -/
def updateElement (h : Heap) (newElement : Node) (i : Nat) : Except String Unit × Heap :=
  let textContent := firstChildText newElement
  let replaceText :=
    !isEqualNode h newElement i && (textContent.isSome && textContent != some "")
  match h[i]? with
  | none =>
    if replaceText then (.error "TypeError", h)
    else if !isEqualNode h newElement i && newElement.attributes ≠ [] then (.error "TypeError", h)
    else (.ok (), h)
  | some currElement =>
    let currElement :=
      if replaceText then currElement.setTextContent newElement.textContent else currElement
    let h := h.set i currElement
    let currElement :=
      if !isEqualNode h newElement i then
        newElement.attributes.foldl Element.setAttribute currElement
      else currElement
    (.ok (), h.set i currElement)

/-- The loop `newElements.forEach((newElement, i) => ...)` from index `i` on; it stops at the
first callback that throws. -/
def updateFrom (h : Heap) : Nat → List Node → Except String Unit × Heap
  | _, [] => (.ok (), h)
  | i, newElement :: rest =>
    match updateElement h newElement i with
    | (.error err, h) => (.error err, h)
    | (.ok (), h) => updateFrom h (i + 1) rest

/-- The method `update(data)`, given the fragment parsed from `this._generateMarkup()` and the
elements of the render target. -/
def update (newDOM : List Node) (currElements : Heap) : Except String Unit × Heap :=
  updateFrom currElements 0 (querySelectorAll newDOM)

/-! ## Notions used to state the properties -/

/-- The predicate of the bookmark invariant: the active recipe's flag is `true` exactly when
some entry of `state.bookmarks` has the active recipe's id. -/
def bookmarkedInvariant (st : State) : Prop :=
  st.recipe.bookmarked = some true ↔
    ∃ b ∈ st.bookmarks, (Bookmark.deref st b).id = st.recipe.id

instance : DecidablePred bookmarkedInvariant := fun st => by
  unfold bookmarkedInvariant
  infer_instance

/-- The ingredient an entry with the three tokens `q`, `u`, `d` stands for. -/
def ingredientOfTokens (q u d : String) : Ingredient :=
  { quantity := if q = "" then none else some (toNumber q), unit := u, description := d }

/-- The predicate of the page invariant on a search state:
`1 ≤ currentPage ≤ max(1, ⌈|results| / resultsPerPage⌉)`. -/
def pageInvariant (search : Search) : Prop :=
  1 ≤ search.currentPage ∧
  search.currentPage ≤ max 1 ⌈(search.results.length : ℚ) / (search.resultsPerPage : ℚ)⌉

/-- The getter `textContent` on a child of an element of the render target: the data of the
text nodes below it, in tree order.  The first argument bounds the depth that is followed. -/
def currentText (h : Heap) : Nat → Child → String
  | _, .text data => data
  | _, .comment _ => ""
  | 0, .element _ => ""
  | fuel + 1, .element index =>
    match h[index]? with
    | none => ""
    | some el => String.join (el.children.map (currentText h fuel))

/-- The getter `currElements[i].textContent`; an element of an array of `n` elements lies less
than `n` levels above its deepest descendant. -/
def Heap.textContent (h : Heap) (i : Nat) : String :=
  currentText h (h.length + 1) (.element i)

/-- The text node or nothing that the setter `textContent` leaves as children. -/
def textChildren (s : String) : List Child :=
  if s = "" then [] else [Child.text s]

/-- The child an element of the render target holds for a node: an element is named by its
index in `currElements`, a text or comment node is held as it is. -/
def refOf (start : Nat) : Node → Child
  | .element _ _ _ => .element start
  | .text data => .text data
  | .comment data => .comment data

/-- The children of an element of the render target whose child nodes are `nodes`, when the
first element in or below them has the index `start`. -/
def childRefs (start : Nat) : List Node → List Child
  | [] => []
  | n :: ns => refOf start n :: childRefs (start + (elementsOf n).length) ns

mutual
/-- The element objects in and below a node of the render target, in document order, when the
first of them has the index `start` in `currElements`. -/
def recordsOf (start : Nat) : Node → List Element
  | .element tag attributes children =>
    { tag := tag, attributes := attributes, children := childRefs (start + 1) children }
      :: recordsOfList (start + 1) children
  | _ => []
/-- The element objects in and below the nodes of a list, in document order. -/
def recordsOfList (start : Nat) : List Node → List Element
  | [] => []
  | n :: ns => recordsOf start n ++ recordsOfList (start + (elementsOf n).length) ns
end

/-- The array `Array.from(this._parentElement.querySelectorAll('*'))` for a render target whose
parent element has the child nodes `nodes`. -/
def renderTarget (nodes : List Node) : Heap := recordsOfList 0 nodes

/-! ## Example inputs -/

/-- The search results used in the examples: `n` summaries with distinct ids. -/
def sampleResults (n : Nat) : List RecipeSummary :=
  (List.range n).map fun i =>
    { id := toString i, title := "t", publisher := "p", image := "i", key := none }

/-- A state with `n` search results, ten per page, showing page `page`. -/
def sampleState (n : Nat) (page : Int) : State :=
  { recipe := emptyRecipe
    search := { query := "pizza", results := sampleResults n, currentPage := page,
                resultsPerPage := 10 }
    bookmarks := [] }

/-- Two ingredients with rational quantities. -/
def sampleIngredients : List Ingredient :=
  [{ quantity := some (.fin 200), unit := "g", description := "flour" },
   { quantity := some (.fin (1 / 2)), unit := "l", description := "milk" }]

/-- A recipe for four servings, as `createRecipeObject` builds it. -/
def sampleRecipe : Recipe :=
  { id := some "r1", title := "Pancakes", publisher := "pub", sourceUrl := "src", image := "img",
    servings := 4, cookingTime := 20, ingredients := some sampleIngredients, key := none,
    bookmarked := some false }

/-- A state whose active recipe is `sampleRecipe`, with no bookmarks. -/
def sampleRecipeState : State :=
  { recipe := sampleRecipe
    search := { query := "", results := [], currentPage := 1, resultsPerPage := 10 }
    bookmarks := [] }

/-- A second recipe. -/
def sampleRecipe2 : Recipe :=
  { id := some "r2", title := "Soup", publisher := "pub", sourceUrl := "src", image := "img",
    servings := 2, cookingTime := 30, ingredients := some [], key := none,
    bookmarked := some true }

/-- A third recipe. -/
def sampleRecipe3 : Recipe :=
  { id := some "r3", title := "Bread", publisher := "pub", sourceUrl := "src", image := "img",
    servings := 1, cookingTime := 60, ingredients := some [], key := none,
    bookmarked := some true }

/-- The recipes the example serialization knows. -/
def sampleCatalog : List Recipe :=
  [{ sampleRecipe with bookmarked := some true }, sampleRecipe2, sampleRecipe3]

/-- An example serialization for a store that only holds recipes of `sampleCatalog`: a recipe
is written as its id, and read back from the catalog. -/
def sampleJSON : JSON :=
  { stringifyRecipe := fun r => r.id.getD ""
    parse := fun s =>
      match s.data with
      | '[' :: rest =>
        match rest.reverse with
        | ']' :: inner =>
          if inner = [] then some []
          else (splitChars ',' inner.reverse).mapM fun cs =>
            sampleCatalog.find? (fun r => r.id = some (String.mk cs))
        | _ => none
      | _ => none }

/-- A store with the bookmarks `r2`, `r3` and the active recipe `r1`, which is not bookmarked. -/
def sampleBookmarkStore : Store :=
  { state := { sampleRecipeState with
               bookmarks := [Bookmark.stored sampleRecipe2, Bookmark.stored sampleRecipe3] }
    storage := some "[r2,r3]"
    requests := [] }

/-- Example constants for `config.js`. -/
def sampleConfig : Config :=
  { API_URL := "https://example.org/api/recipes/", RESULTS_PER_PAGE := 10, KEY := "k" }

/-- A store in which `addBookmark` ran twice on the active recipe `r1`. -/
def sampleDuplicateStore : Store :=
  { state := { sampleRecipeState with
               recipe := { sampleRecipe with bookmarked := some true }
               bookmarks := [Bookmark.active, Bookmark.active] }
    storage := some "[r1,r1]"
    requests := [] }

/-- A Gateway that answers every request with the recipe `r9`. -/
def sampleGateway : Gateway := fun _ =>
  .ok (.recipe { id := "r9", title := "Stew", publisher := "pub", source_url := "src",
                 image_url := "img", servings := 4, cooking_time := 45, ingredients := [],
                 key := none })

/-- A store with the active recipe `r1` and no bookmarks. -/
def freshRecipeStore : Store :=
  { state := sampleRecipeState, storage := none, requests := [] }

/-- A draft with two well-formed ingredient fields, an empty one, and the other form fields. -/
def sampleDraft : List (String × String) :=
  [("title", "Cake"), ("sourceUrl", "src"), ("image", "img"), ("publisher", "me"),
   ("cookingTime", "45"), ("servings", "4"),
   ("ingredient-1", "2,kg,flour"), ("ingredient-2", " , kg ,flour"), ("ingredient-3", "")]

/-- A draft whose second ingredient field has two tokens. -/
def sampleBadDraft : List (String × String) :=
  [("title", "Cake"), ("servings", "4"), ("ingredient-1", "1,l,milk"), ("ingredient-2", "2,kg")]

/-- A Gateway that answers every request with a list of 23 search results. -/
def sampleSearchGateway : Gateway := fun _ =>
  .ok (.recipes ((List.range 23).map fun i =>
    { id := toString i, title := "t", publisher := "p", image_url := "i", key := none }))

/-- The fragment parsed from the markup `<p class="b">Hello <b>world</b></p>`. -/
def sampleNewDOM : List Node :=
  [.element "p" [("class", "b")] [.text "Hello ", .element "b" [] [.text "world"]]]

/-- The elements of a render target that holds `<p class="a">Hello <b>world</b></p>`. -/
def sampleCurrElements : Heap :=
  [{ tag := "p", attributes := [("class", "a")], children := [.text "Hello ", .element 1] },
   { tag := "b", attributes := [], children := [.text "world"] }]

/-- The elements of a render target that holds `<p class="b">Hello <b>world</b></p>`. -/
def sampleSameElements : Heap :=
  [{ tag := "p", attributes := [("class", "b")], children := [.text "Hello ", .element 1] },
   { tag := "b", attributes := [], children := [.text "world"] }]

/-- The fragment parsed from `<span class="n" data-v="5">5</span>`. -/
def sampleNewSpan : Node :=
  .element "span" [("class", "n"), ("data-v", "5")] [.text "5"]

/-- The elements of a render target that holds `<span class="n" data-v="4">4</span>`. -/
def sampleSpanElements : Heap :=
  [{ tag := "span", attributes := [("class", "n"), ("data-v", "4")], children := [.text "4"] }]

/-! ## Theorems -/

/-- On an index that is not negative, `slice` clamps to the length. -/
theorem sliceIndex_of_nonneg (len : Nat) (i : Int) (hi : 0 ≤ i) :
    sliceIndex len i = min i.toNat len := by
  unfold sliceIndex
  rw [if_neg (by omega)]

/-- C1: for a positive page size and a page number `p ≥ 1`, `getPageSearchResults(p)` returns
the results at the indices `i` with `(p-1)*resultsPerPage ≤ i < min(p*resultsPerPage, |results|)`
in their order (position `j` of the page is index `(p-1)*resultsPerPage + j`), which is the empty
list when `(p-1)*resultsPerPage ≥ |results|`; it sets `currentPage` to `p` and leaves the rest of
the state as it was. -/
theorem getPageSearchResults_spec (st : State) (p : Int)
    (hr : 0 < st.search.resultsPerPage) (hp : 1 ≤ p) :
    (∀ j : Nat, (getPageSearchResults st (some p)).1[j]? =
        if (p - 1) * st.search.resultsPerPage + j <
            min (p * st.search.resultsPerPage) st.search.results.length
        then st.search.results[((p - 1) * st.search.resultsPerPage + j).toNat]? else none) ∧
    ((getPageSearchResults st (some p)).1.length =
        (min (p * st.search.resultsPerPage) st.search.results.length
          - (p - 1) * st.search.resultsPerPage).toNat) ∧
    ((st.search.results.length : Int) ≤ (p - 1) * st.search.resultsPerPage →
        (getPageSearchResults st (some p)).1 = []) ∧
    (getPageSearchResults st (some p)).2 =
        { st with search := { st.search with currentPage := p } } ∧
    (getPageSearchResults st (some p)).2.search.currentPage = p ∧
    (getPageSearchResults st (some p)).2.search.results = st.search.results ∧
    (getPageSearchResults st (some p)).2.search.query = st.search.query ∧
    (getPageSearchResults st (some p)).2.search.resultsPerPage = st.search.resultsPerPage ∧
    (getPageSearchResults st (some p)).2.recipe = st.recipe ∧
    (getPageSearchResults st (some p)).2.bookmarks = st.bookmarks := by
  obtain ⟨a, ha⟩ : ∃ a : Nat, (a : Int) = (p - 1) * st.search.resultsPerPage :=
    ⟨((p - 1) * st.search.resultsPerPage).toNat,
      Int.toNat_of_nonneg (Int.mul_nonneg (by omega) (by omega))⟩
  obtain ⟨b, hb⟩ : ∃ b : Nat, (b : Int) = p * st.search.resultsPerPage :=
    ⟨(p * st.search.resultsPerPage).toNat,
      Int.toNat_of_nonneg (Int.mul_nonneg (by omega) (by omega))⟩
  have hab : a ≤ b := by
    have : (p - 1) * st.search.resultsPerPage ≤ p * st.search.resultsPerPage :=
      Int.mul_le_mul_of_nonneg_right (by omega) (by omega)
    omega
  have hres : (getPageSearchResults st (some p)).1 =
      (st.search.results.drop (min a st.search.results.length)).take
        (min b st.search.results.length - min a st.search.results.length) := by
    simp only [getPageSearchResults, slice, Option.getD_some]
    rw [sliceIndex_of_nonneg _ _ (by omega), sliceIndex_of_nonneg _ _ (by omega), ← ha, ← hb]
    simp
  refine ⟨?_, ?_, ?_, rfl, rfl, rfl, rfl, rfl, rfl, rfl⟩
  · intro j
    rw [hres, ← ha, ← hb, List.getElem?_take, List.getElem?_drop]
    split_ifs with h1 h2 h2
    · congr 1
      omega
    · exfalso
      omega
    · rw [List.getElem?_eq_none]
      omega
    · rfl
  · rw [hres, ← ha, ← hb, List.length_take, List.length_drop]
    omega
  · intro hlen
    rw [hres, ← ha] at *
    have : min b st.search.results.length - min a st.search.results.length = 0 := by omega
    rw [this, List.take_zero]

/-- C1, the example of the specification: 23 results, ten per page, give pages of 10, 10 and 3
results and an empty fourth page. -/
theorem getPageSearchResults_spec_witness :
    (0 : Int) < (sampleState 23 1).search.resultsPerPage ∧ (1 : Int) ≤ 3 ∧
    (getPageSearchResults (sampleState 23 1) (some 1)).1.length = 10 ∧
    (getPageSearchResults (sampleState 23 1) (some 2)).1.length = 10 ∧
    (getPageSearchResults (sampleState 23 1) (some 3)).1.length = 3 ∧
    (getPageSearchResults (sampleState 23 1) (some 4)).1 = [] ∧
    (getPageSearchResults (sampleState 23 1) (some 3)).2.search.currentPage = 3 := by
  have h : (0 : Int) < (sampleState 23 1).search.resultsPerPage := by decide
  refine ⟨h, by decide, ?_, ?_, ?_, ?_, ?_⟩
  · rw [(getPageSearchResults_spec (sampleState 23 1) 1 h (by decide)).2.1]; decide
  · rw [(getPageSearchResults_spec (sampleState 23 1) 2 h (by decide)).2.1]; decide
  · rw [(getPageSearchResults_spec (sampleState 23 1) 3 h (by decide)).2.1]; decide
  · exact (getPageSearchResults_spec (sampleState 23 1) 4 h (by decide)).2.2.1 (by decide)
  · exact (getPageSearchResults_spec (sampleState 23 1) 3 h (by decide)).2.2.2.2.1

/-- Scaling an ingredient whose quantity is a rational, for servings that are not zero. -/
theorem scaleIngredient_fin (n s q : ℚ) (hs : s ≠ 0) (ing : Ingredient)
    (hq : ing.quantity = some (.fin q)) :
    scaleIngredient n s ing =
      { quantity := some (.fin (q * n / s)), unit := ing.unit, description := ing.description } := by
  simp [scaleIngredient, hq, JSNumber.mulDiv, hs]

/-- Scaling from `s` to `n` servings and back gives the ingredient back. -/
theorem scaleIngredient_roundtrip (n s : ℚ) (hn : n ≠ 0) (hs : s ≠ 0) (ing : Ingredient)
    (hq : ∃ q, ing.quantity = some (.fin q)) :
    scaleIngredient s n (scaleIngredient n s ing) = ing := by
  obtain ⟨q, hq⟩ := hq
  rw [scaleIngredient_fin n s q hs ing hq, scaleIngredient_fin s n (q * n / s) hn _ rfl]
  have : q * n / s * s / n = q := by field_simp
  rw [this]
  cases ing
  simp_all

/-- C2: over the rationals, for an active recipe with servings `s > 0` whose ingredients all
have a quantity, and `n > 0`, `updateServings(n)` succeeds, sets the servings to `n`, keeps the
number and order of the ingredients with their units and descriptions, and turns every quantity
`q` into `q * n / s`; `updateServings(s)` afterwards succeeds and restores the state, so every
quantity and the servings are the original ones. -/
theorem updateServings_spec (st : State) (ings : List Ingredient) (n : ℚ)
    (hi : st.recipe.ingredients = some ings) (hs : 0 < st.recipe.servings)
    (hq : ∀ ing ∈ ings, ∃ q, ing.quantity = some (.fin q)) (hn : 0 < n) :
    (updateServings st n).1 = .ok () ∧
    (updateServings st n).2.recipe.servings = n ∧
    (∃ ings1, (updateServings st n).2.recipe.ingredients = some ings1 ∧
      ings1.length = ings.length ∧
      ∀ (i : Nat) (ing : Ingredient) (q : ℚ), ings[i]? = some ing →
        ing.quantity = some (.fin q) →
        ings1[i]? = some { quantity := some (.fin (q * n / st.recipe.servings)),
                           unit := ing.unit, description := ing.description }) ∧
    (updateServings (updateServings st n).2 st.recipe.servings).1 = .ok () ∧
    (updateServings (updateServings st n).2 st.recipe.servings).2 = st := by
  have hs0 : st.recipe.servings ≠ 0 := ne_of_gt hs
  have hn0 : n ≠ 0 := ne_of_gt hn
  have h1 : updateServings st n = (.ok (), { st with recipe := { st.recipe with
      ingredients := some (ings.map (scaleIngredient n st.recipe.servings)),
      servings := n } }) := by
    simp [updateServings, hi]
  have hback : (ings.map (scaleIngredient n st.recipe.servings)).map
      (scaleIngredient st.recipe.servings n) = ings := by
    rw [List.map_map]
    conv_rhs => rw [← List.map_id ings]
    apply List.map_congr_left
    intro ing hing
    exact scaleIngredient_roundtrip n st.recipe.servings hn0 hs0 ing (hq ing hing)
  refine ⟨by rw [h1], by rw [h1], ⟨_, by rw [h1], by simp, ?_⟩, ?_, ?_⟩
  · intro i ing q hget hquant
    rw [List.getElem?_map, hget, Option.map_some', scaleIngredient_fin n _ q hs0 ing hquant]
  · rw [h1]
    simp [updateServings]
  · rw [h1]
    simp only [updateServings, hback]
    obtain ⟨recipe, search, bookmarks⟩ := st
    obtain ⟨_, _, _, _, _, _, _, _, _, _⟩ := recipe
    simp_all

/-- C2 on a recipe for 4 servings with 200 g of flour and half a litre of milk, scaled to 6
servings: 300 g and three quarters of a litre. -/
theorem updateServings_spec_witness :
    (updateServings sampleRecipeState 6).2.recipe.servings = 6 ∧
    (updateServings sampleRecipeState 6).2.recipe.ingredients = some
      [{ quantity := some (.fin 300), unit := "g", description := "flour" },
       { quantity := some (.fin (3 / 4)), unit := "l", description := "milk" }] ∧
    (updateServings (updateServings sampleRecipeState 6).2 4).2 = sampleRecipeState := by
  have h := updateServings_spec sampleRecipeState sampleIngredients 6 rfl (by decide)
    (by
      intro ing hing
      simp only [sampleIngredients, List.mem_cons, List.mem_singleton, List.not_mem_nil,
        or_false] at hing
      rcases hing with rfl | rfl
      · exact ⟨200, rfl⟩
      · exact ⟨1 / 2, rfl⟩)
    (by decide)
  refine ⟨h.2.1, ?_, h.2.2.2.2⟩
  simp only [updateServings, sampleRecipeState, sampleRecipe, sampleIngredients, List.map,
    scaleIngredient, Option.getD_some, JSNumber.mulDiv]
  norm_num

/-! ### Bookmarks -/

/-- The index `findIndex` returns is `-1` or a position of the list. -/
theorem findIndex_range {α : Type} (p : α → Bool) (xs : List α) :
    findIndex p xs = -1 ∨ (0 ≤ findIndex p xs ∧ findIndex p xs < xs.length) := by
  induction xs with
  | nil => left; rfl
  | cons x xs ih =>
    simp only [findIndex, List.length_cons]
    split_ifs <;> omega

/-- The index `findIndex` returns is `-1` exactly when no element satisfies the predicate. -/
theorem findIndex_eq_neg_one_iff {α : Type} (p : α → Bool) (xs : List α) :
    findIndex p xs = -1 ↔ xs.any p = false := by
  induction xs with
  | nil => simp [findIndex]
  | cons x xs ih =>
    have hr := findIndex_range p xs
    simp only [findIndex, List.any_cons, Bool.or_eq_false_iff]
    split_ifs with h1 h2
    · simp [h1]
    · have h1f : p x = false := by simpa using h1
      rw [← ih]
      constructor
      · intro _
        exact ⟨h1f, by omega⟩
      · intro _
        rfl
    · have h1f : p x = false := by simpa using h1
      rw [← ih]
      constructor
      · intro h
        omega
      · intro h
        omega

/-- Removing one element at a position under a new head. -/
theorem splice_cons_succ {α : Type} (x : α) (xs : List α) (i : Int) (hi : 0 ≤ i) :
    splice (x :: xs) (i + 1) 1 = x :: splice xs i 1 := by
  obtain ⟨k, rfl⟩ := Int.eq_ofNat_of_zero_le hi
  simp only [splice, sliceIndex, List.length_cons]
  rw [if_neg (by omega), if_neg (by omega)]
  have h1 : min ((k : Int) + 1).toNat (xs.length + 1) = min (k : Int).toNat xs.length + 1 := by
    omega
  rw [h1, List.take_succ_cons, List.cons_append]
  congr 1
  have h2 : min (k : Int).toNat xs.length + 1
      + min (max (1 : Int) 0).toNat (xs.length + 1 - (min (k : Int).toNat xs.length + 1))
      = (min (k : Int).toNat xs.length
          + min (max (1 : Int) 0).toNat (xs.length - min (k : Int).toNat xs.length)) + 1 := by
    omega
  rw [h2, List.drop_succ_cons]

/-- What `splice(-1, 1)` leaves: the list without its last element. -/
theorem splice_neg_one {α : Type} (xs : List α) : splice xs (-1) 1 = xs.dropLast := by
  simp only [splice, sliceIndex]
  rw [if_pos (by omega)]
  rcases Nat.eq_zero_or_pos xs.length with h | h
  · rw [List.length_eq_zero] at h
    subst h
    rfl
  · have h1 : ((xs.length : Int) + -1).toNat = xs.length - 1 := by omega
    have h2 : min (max (1 : Int) 0).toNat (xs.length - (xs.length - 1)) = 1 := by
      have : (max (1 : Int) 0).toNat = 1 := by decide
      omega
    rw [h1, h2]
    have h3 : xs.length - 1 + 1 = xs.length := by omega
    rw [h3, List.drop_length, List.append_nil, List.dropLast_eq_take]

/-- What `splice(findIndex(p), 1)` leaves: without the first element that satisfies `p`, or,
when no element does, without the last element. -/
theorem splice_findIndex {α : Type} (p : α → Bool) (xs : List α) :
    splice xs (findIndex p xs) 1 = if xs.any p then xs.eraseP p else xs.dropLast := by
  induction xs with
  | nil => rfl
  | cons x xs ih =>
    by_cases hx : p x = true
    · have : findIndex p (x :: xs) = 0 := by simp [findIndex, hx]
      rw [this, if_pos (by simp [hx]), List.eraseP_cons_of_pos hx]
      simp [splice, sliceIndex]
    · by_cases hany : xs.any p = true
      · have hne : findIndex p xs ≠ -1 := by
          intro h
          rw [findIndex_eq_neg_one_iff] at h
          rw [h] at hany
          exact Bool.noConfusion hany
        have hr := findIndex_range p xs
        have : findIndex p (x :: xs) = findIndex p xs + 1 := by
          simp only [findIndex, hx]
          rw [if_neg (by simp), if_neg (by omega)]
        rw [this, splice_cons_succ x xs _ (by omega), ih, if_pos hany,
          if_pos (by simp [hany]), List.eraseP_cons_of_neg hx]
      · have hall : (x :: xs).any p = false := by
          simp only [List.any_cons, Bool.or_eq_false_iff]
          exact ⟨by simpa using hx, by simpa using hany⟩
        have := (findIndex_eq_neg_one_iff p (x :: xs)).2 hall
        rw [this, splice_neg_one, hall]
        simp

/-- The bookmark array `deleteBookmark(id)` leaves. -/
theorem deleteBookmark_bookmarks (J : JSON) (s : Store) (id : Option String) :
    (deleteBookmark J s id).state.bookmarks =
      if s.state.bookmarks.any (fun el => decide ((Bookmark.deref s.state el).id = id))
      then s.state.bookmarks.eraseP (fun el => decide ((Bookmark.deref s.state el).id = id))
      else s.state.bookmarks.dropLast := by
  rw [← splice_findIndex]
  simp only [deleteBookmark, persistBookmarks]
  split_ifs <;> rfl

/-- The active recipe `deleteBookmark(id)` leaves. -/
theorem deleteBookmark_recipe (J : JSON) (s : Store) (id : Option String) :
    (deleteBookmark J s id).state.recipe =
      if id = s.state.recipe.id then { s.state.recipe with bookmarked := some false }
      else s.state.recipe := by
  simp only [deleteBookmark, persistBookmarks]
  split_ifs <;> rfl

/-- For an id that no bookmark has, `deleteBookmark(id)` leaves the bookmark array without its
last element. -/
theorem deleteBookmark_of_absent (J : JSON) (s : Store) (id : Option String)
    (h : ∀ b ∈ s.state.bookmarks, (Bookmark.deref s.state b).id ≠ id) :
    (deleteBookmark J s id).state.bookmarks = s.state.bookmarks.dropLast := by
  rw [deleteBookmark_bookmarks, if_neg]
  rw [List.any_eq_true]
  rintro ⟨b, hb, hbid⟩
  exact h b hb (of_decide_eq_true hbid)

/-- C3, on the code: with the bookmarks `r2`, `r3` and an id `"zzz"` that no bookmark has,
`deleteBookmark("zzz")` removes the last bookmark, `r3`, and writes the shortened list to the
durable entry. -/
theorem deleteBookmark_absent_id_removes_last :
    (∀ b ∈ sampleBookmarkStore.state.bookmarks,
      (Bookmark.deref sampleBookmarkStore.state b).id ≠ some "zzz") ∧
    (deleteBookmark sampleJSON sampleBookmarkStore (some "zzz")).state.bookmarks
      = [Bookmark.stored sampleRecipe2] ∧
    (deleteBookmark sampleJSON sampleBookmarkStore (some "zzz")).state.bookmarks
      ≠ sampleBookmarkStore.state.bookmarks ∧
    (deleteBookmark sampleJSON sampleBookmarkStore (some "zzz")).storage = some "[r2]" := by
  refine ⟨by decide, by decide, by decide, by decide⟩

/-- When at most one element satisfies `p`, none is left after `eraseP p`. -/
theorem eraseP_no_match {α : Type} (p : α → Bool) (l : List α) (h : l.countP p ≤ 1) :
    ∀ b ∈ l.eraseP p, p b = false := by
  induction l with
  | nil => intro b hb; simp at hb
  | cons x xs ih =>
    by_cases hx : p x = true
    · rw [List.eraseP_cons_of_pos hx]
      rw [List.countP_cons_of_pos _ _ hx] at h
      have h0 : xs.countP p = 0 := by omega
      rw [List.countP_eq_zero] at h0
      intro b hb
      simpa using h0 b hb
    · rw [List.eraseP_cons_of_neg hx]
      rw [List.countP_cons_of_neg _ _ hx] at h
      intro b hb
      rcases List.mem_cons.1 hb with rfl | hb
      · simpa using hx
      · exact ih h b hb

/-- C4, as amended: the bookmark invariant holds after a successful `loadRecipe(id)` whose
response carries the requested id, after `addBookmark`, and after a successful `uploadRecipe`;
and `deleteBookmark(id)` preserves it for every id that some entry of `state.bookmarks` has,
provided that, when `id` is the active recipe's id, at most one entry has that id. -/
theorem bookmarkedInvariant_preserved (cfg : Config) (J : JSON) (ajax : Gateway) (s : Store) :
    (∀ (id : String) (r : ApiRecipe),
      ajax { url := cfg.API_URL ++ id ++ "?key=" ++ cfg.KEY, uploadData := none }
        = .ok (.recipe r) → r.id = id →
      (loadRecipe cfg ajax s id).1 = .ok () ∧
      bookmarkedInvariant (loadRecipe cfg ajax s id).2.state) ∧
    bookmarkedInvariant (addBookmark J s).state ∧
    (∀ id : Option String, bookmarkedInvariant s.state →
      (∃ b ∈ s.state.bookmarks, (Bookmark.deref s.state b).id = id) →
      (id = s.state.recipe.id →
        s.state.bookmarks.countP (fun b => decide ((Bookmark.deref s.state b).id = id)) ≤ 1) →
      bookmarkedInvariant (deleteBookmark J s id).state) ∧
    (∀ newRecipe : List (String × String),
      (uploadRecipe cfg J ajax s newRecipe).1 = .ok () →
      bookmarkedInvariant (uploadRecipe cfg J ajax s newRecipe).2.state) := by
  refine ⟨?_, ?_, ?_, ?_⟩
  · intro id r hajax hid
    subst hid
    simp only [loadRecipe, hajax]
    refine ⟨trivial, ?_⟩
    split_ifs with hany
    · simp only [bookmarkedInvariant, true_iff]
      rw [List.any_eq_true] at hany
      obtain ⟨b, hb, hbid⟩ := hany
      exact ⟨b, hb, by cases b <;> simp_all [Bookmark.deref, State.setRecipe, createRecipeObject]⟩
    · simp only [bookmarkedInvariant]
      constructor
      · intro h
        simp at h
      · rintro ⟨b, hb, hbid⟩
        exfalso
        apply hany
        rw [List.any_eq_true]
        exact ⟨b, hb, by cases b <;> simp_all [Bookmark.deref, State.setRecipe, createRecipeObject]⟩
  · simp only [bookmarkedInvariant, addBookmark, persistBookmarks, true_iff]
    exact ⟨Bookmark.active, by simp, rfl⟩
  · intro id hinv hpresent huniq
    have hany : s.state.bookmarks.any
        (fun el => decide ((Bookmark.deref s.state el).id = id)) = true := by
      rw [List.any_eq_true]
      obtain ⟨b, hb, hbid⟩ := hpresent
      exact ⟨b, hb, by simpa using hbid⟩
    have hbm := deleteBookmark_bookmarks J s id
    rw [if_pos hany] at hbm
    have hrec := deleteBookmark_recipe J s id
    have hderef : ∀ b, (Bookmark.deref (deleteBookmark J s id).state b).id
        = (Bookmark.deref s.state b).id := by
      intro b
      cases b
      · simp only [Bookmark.deref, hrec]
        split_ifs <;> rfl
      · rfl
    have hid : (deleteBookmark J s id).state.recipe.id = s.state.recipe.id := by
      rw [hrec]
      split_ifs <;> rfl
    unfold bookmarkedInvariant
    simp only [hderef, hid, hbm]
    by_cases hidr : id = s.state.recipe.id
    · have hflag : (deleteBookmark J s id).state.recipe.bookmarked = some false := by
        rw [hrec, if_pos hidr]
      rw [hflag]
      constructor
      · intro h
        simp at h
      · rintro ⟨b, hb, hbid⟩
        have := eraseP_no_match _ _ (huniq hidr) b hb
        rw [← hidr] at hbid
        simp [hbid] at this
    · have hflag : (deleteBookmark J s id).state.recipe.bookmarked
          = s.state.recipe.bookmarked := by
        rw [hrec, if_neg hidr]
      unfold bookmarkedInvariant at hinv
      rw [hflag, hinv]
      constructor
      · rintro ⟨b, hb, hbid⟩
        refine ⟨b, ?_, hbid⟩
        rw [List.mem_eraseP_of_neg]
        · exact hb
        · intro hp
          apply hidr
          rw [← hbid]
          exact (of_decide_eq_true hp).symm
      · rintro ⟨b, hb, hbid⟩
        exact ⟨b, List.mem_of_mem_eraseP hb, hbid⟩
  · intro newRecipe hok
    unfold uploadRecipe at hok ⊢
    split at hok
    · exact absurd hok (by simp)
    · dsimp only at hok ⊢
      split at hok
      · exact absurd hok (by simp)
      · exact absurd hok (by simp)
      · simp only [bookmarkedInvariant, addBookmark, persistBookmarks, true_iff]
        exact ⟨Bookmark.active, by simp, rfl⟩

/-- C4 at concrete inputs: the invariant after loading `r9`, after bookmarking the active
recipe, after deleting the bookmark `r2`, after an upload, and after deleting the only bookmark
of the active recipe `r1`. -/
theorem bookmarkedInvariant_preserved_witness :
    bookmarkedInvariant sampleBookmarkStore.state ∧
    bookmarkedInvariant (loadRecipe sampleConfig sampleGateway sampleBookmarkStore "r9").2.state ∧
    bookmarkedInvariant (addBookmark sampleJSON sampleBookmarkStore).state ∧
    bookmarkedInvariant (deleteBookmark sampleJSON sampleBookmarkStore (some "r2")).state ∧
    bookmarkedInvariant
      (uploadRecipe sampleConfig sampleJSON sampleGateway sampleBookmarkStore []).2.state ∧
    bookmarkedInvariant
      (deleteBookmark sampleJSON (addBookmark sampleJSON freshRecipeStore) (some "r1")).state :=
  ⟨by decide,
   ((bookmarkedInvariant_preserved sampleConfig sampleJSON sampleGateway
      sampleBookmarkStore).1 "r9" _ rfl rfl).2,
   (bookmarkedInvariant_preserved sampleConfig sampleJSON sampleGateway sampleBookmarkStore).2.1,
   (bookmarkedInvariant_preserved sampleConfig sampleJSON sampleGateway
      sampleBookmarkStore).2.2.1 (some "r2") (by decide) (by decide) (by decide),
   (bookmarkedInvariant_preserved sampleConfig sampleJSON sampleGateway
      sampleBookmarkStore).2.2.2 [] rfl,
   (bookmarkedInvariant_preserved sampleConfig sampleJSON sampleGateway
      (addBookmark sampleJSON freshRecipeStore)).2.2.1 (some "r1") (by decide) (by decide)
      (by decide)⟩

/-- C4 as stated fails: with two entries for the active recipe `r1` the invariant holds, and
after `deleteBookmark("r1")` one entry is left while the flag is `false`; and when the Gateway
answers `loadRecipe("r2")` with the recipe `r9`, the flag is set from the bookmark `r2` although
no entry has the id `r9`. -/
theorem bookmarkedInvariant_not_preserved :
    (bookmarkedInvariant sampleDuplicateStore.state ∧
      ¬ bookmarkedInvariant (deleteBookmark sampleJSON sampleDuplicateStore (some "r1")).state) ∧
    (bookmarkedInvariant sampleBookmarkStore.state ∧
      (loadRecipe sampleConfig sampleGateway sampleBookmarkStore "r2").1 = .ok () ∧
      ¬ bookmarkedInvariant
        (loadRecipe sampleConfig sampleGateway sampleBookmarkStore "r2").2.state) := by
  refine ⟨⟨by decide, by decide⟩, by decide, rfl, by decide⟩

/-- The recipe objects of a bookmark array without an entry for the active object do not
depend on the active recipe. -/
theorem bookmarkObjects_of_no_active (st : State) (recipe : Recipe)
    (h : Bookmark.active ∉ st.bookmarks) :
    State.bookmarkObjects { st with recipe := recipe } = st.bookmarkObjects := by
  unfold State.bookmarkObjects
  apply List.map_congr_left
  intro b hb
  cases b with
  | active => exact absurd hb h
  | stored r => rfl

/-- C5: when no entry of `state.bookmarks` has the id of the active recipe `r`, `addBookmark(r)`
followed by `deleteBookmark(r.id)` leaves `state.bookmarks` as it was before the two calls, with
the same recipe objects in the same order, and leaves the active recipe with its flag `false`
and otherwise unchanged. -/
theorem addBookmark_deleteBookmark (J : JSON) (s : Store)
    (h : ∀ b ∈ s.state.bookmarks, (Bookmark.deref s.state b).id ≠ s.state.recipe.id) :
    (deleteBookmark J (addBookmark J s) s.state.recipe.id).state.bookmarks = s.state.bookmarks ∧
    (deleteBookmark J (addBookmark J s) s.state.recipe.id).state.bookmarkObjects
      = s.state.bookmarkObjects ∧
    (deleteBookmark J (addBookmark J s) s.state.recipe.id).state.recipe.bookmarked
      = some false ∧
    (deleteBookmark J (addBookmark J s) s.state.recipe.id).state.recipe
      = { s.state.recipe with bookmarked := some false } := by
  have hna : Bookmark.active ∉ s.state.bookmarks := fun hmem => h _ hmem rfl
  have hbm : (deleteBookmark J (addBookmark J s) s.state.recipe.id).state.bookmarks
      = s.state.bookmarks := by
    rw [deleteBookmark_bookmarks]
    have hadd : (addBookmark J s).state.bookmarks = s.state.bookmarks ++ [Bookmark.active] := rfl
    rw [hadd, if_pos (by simp [Bookmark.deref, addBookmark, persistBookmarks]),
      List.eraseP_append_right]
    · simp [Bookmark.deref, addBookmark, persistBookmarks]
    · intro b hb
      have := h b hb
      have hd : (Bookmark.deref (addBookmark J s).state b).id = (Bookmark.deref s.state b).id := by
        cases b <;> rfl
      simp [hd, this]
  have hrec : (deleteBookmark J (addBookmark J s) s.state.recipe.id).state.recipe
      = { s.state.recipe with bookmarked := some false } := by
    rw [deleteBookmark_recipe]
    have hid : s.state.recipe.id = (addBookmark J s).state.recipe.id := rfl
    rw [if_pos hid]
    rfl
  refine ⟨hbm, ?_, by rw [hrec], hrec⟩
  have hst : (deleteBookmark J (addBookmark J s) s.state.recipe.id).state
      = { s.state with recipe := { s.state.recipe with bookmarked := some false } } := by
    have hsearch : (deleteBookmark J (addBookmark J s) s.state.recipe.id).state.search
        = s.state.search := by
      simp only [deleteBookmark, persistBookmarks]
      split_ifs <;> rfl
    generalize (deleteBookmark J (addBookmark J s) s.state.recipe.id).state = st at *
    cases st
    simp_all
  rw [hst]
  exact bookmarkObjects_of_no_active s.state _ hna

/-- C5 from an empty bookmark list: the list is empty again afterwards, and the flag of the
active recipe is `false`. -/
theorem addBookmark_deleteBookmark_witness :
    (deleteBookmark sampleJSON (addBookmark sampleJSON (freshRecipeStore))
      freshRecipeStore.state.recipe.id).state.bookmarks = [] ∧
    (deleteBookmark sampleJSON (addBookmark sampleJSON (freshRecipeStore))
      freshRecipeStore.state.recipe.id).state.recipe.bookmarked = some false :=
  ⟨(addBookmark_deleteBookmark sampleJSON freshRecipeStore (by decide)).1,
   (addBookmark_deleteBookmark sampleJSON freshRecipeStore (by decide)).2.2.1⟩

/-! ### Uploading -/

/-- The callback of `uploadRecipe` on an entry with three tokens. -/
theorem parseIngredient_of_three (entry : String × String) (q u d : String)
    (h : ingArr entry.2 = [q, u, d]) :
    parseIngredient entry = .ok (ingredientOfTokens q u d) := by
  simp only [parseIngredient, h, ingredientOfTokens]
  by_cases hq : q = "" <;> simp [hq]

/-- The callback of `uploadRecipe` on an entry with another number of tokens. -/
theorem parseIngredient_of_not_three (entry : String × String)
    (h : (ingArr entry.2).length ≠ 3) : parseIngredient entry = .error formatError := by
  unfold parseIngredient
  split
  · next heq => simp [heq] at h
  · rfl

/-- A list of exactly three elements. -/
theorem eq_triple_of_length {α : Type} (l : List α) (h : l.length = 3) :
    ∃ a b c, l = [a, b, c] := by
  match l, h with
  | [a, b, c], _ => exact ⟨a, b, c, rfl⟩

/-- The ingredient list when every kept entry has three tokens. -/
theorem mapThrowing_parseIngredient_ok (entries : List (String × String))
    (h : ∀ entry ∈ entries, (ingArr entry.2).length = 3) :
    ∃ ings, mapThrowing parseIngredient entries = .ok ings ∧ ings.length = entries.length ∧
      ∀ (i : Nat) (entry : String × String) (q u d : String), entries[i]? = some entry →
        ingArr entry.2 = [q, u, d] → ings[i]? = some (ingredientOfTokens q u d) := by
  induction entries with
  | nil => exact ⟨[], rfl, rfl, by simp⟩
  | cons e es ih =>
    obtain ⟨ings, hok, hlen, hget⟩ := ih (fun entry hmem => h entry (List.mem_cons_of_mem _ hmem))
    obtain ⟨q, u, d, hqud⟩ := eq_triple_of_length _ (h e (List.mem_cons_self _ _))
    refine ⟨ingredientOfTokens q u d :: ings, ?_, by simp [hlen], ?_⟩
    · simp only [mapThrowing, parseIngredient_of_three e q u d hqud, hok]
    · intro i entry q2 u2 d2 hi htok
      cases i with
      | zero =>
        simp only [List.getElem?_cons_zero, Option.some.injEq] at hi
        subst hi
        rw [hqud] at htok
        simp only [List.cons.injEq, and_true] at htok
        obtain ⟨rfl, rfl, rfl⟩ := htok
        simp
      | succ k =>
        simp only [List.getElem?_cons_succ] at hi ⊢
        exact hget k entry q2 u2 d2 hi htok

/-- The ingredient list when some kept entry has another number of tokens. -/
theorem mapThrowing_parseIngredient_error (entries : List (String × String))
    (h : ∃ entry ∈ entries, (ingArr entry.2).length ≠ 3) :
    mapThrowing parseIngredient entries = .error formatError := by
  induction entries with
  | nil => simp at h
  | cons e es ih =>
    by_cases he : (ingArr e.2).length = 3
    · obtain ⟨q, u, d, hqud⟩ := eq_triple_of_length _ he
      have hrest : ∃ entry ∈ es, (ingArr entry.2).length ≠ 3 := by
        obtain ⟨entry, hmem, hne⟩ := h
        rcases List.mem_cons.1 hmem with rfl | hmem
        · exact absurd he hne
        · exact ⟨entry, hmem, hne⟩
      simp only [mapThrowing, parseIngredient_of_three e q u d hqud, ih hrest]
    · simp only [mapThrowing, parseIngredient_of_not_three e he]

/-- C6: `uploadRecipe` keeps the entries whose name starts with `ingredient` and whose value is
not empty, splits each value on commas and trims the tokens.  If every such entry has exactly
three tokens, the Gateway is called once, with a payload whose ingredient list has one entry per
kept field, in field order, the entry for the tokens `q`, `u`, `d` being the quantity `+q` (or
`null` when `q` is empty), the unit `u` and the description `d`.  If some such entry has another
number of tokens, `uploadRecipe` fails with the format error and leaves the store as it was: the
Gateway is not called, and the active recipe, the bookmarks and the durable entry are unchanged. -/
theorem uploadRecipe_ingredients (cfg : Config) (J : JSON) (ajax : Gateway) (s : Store)
    (newRecipe : List (String × String)) :
    ingredientEntries newRecipe
      = newRecipe.filter (fun entry => startsWith entry.1 "ingredient" && entry.2 ≠ "") ∧
    (∀ value, ingArr value = (split value ',').map trim) ∧
    ((∀ entry ∈ ingredientEntries newRecipe, (ingArr entry.2).length = 3) →
      ∃ payload : Payload,
        (uploadRecipe cfg J ajax s newRecipe).2.requests = s.requests ++
          [{ url := cfg.API_URL ++ "?key=" ++ cfg.KEY, uploadData := some payload }] ∧
        payload.ingredients.length = (ingredientEntries newRecipe).length ∧
        ∀ (i : Nat) (entry : String × String) (q u d : String),
          (ingredientEntries newRecipe)[i]? = some entry → ingArr entry.2 = [q, u, d] →
          payload.ingredients[i]? = some
            { quantity := if q = "" then none else some (toNumber q),
              unit := u, description := d }) ∧
    ((∃ entry ∈ ingredientEntries newRecipe, (ingArr entry.2).length ≠ 3) →
      uploadRecipe cfg J ajax s newRecipe = (.error formatError, s)) := by
  refine ⟨rfl, fun _ => rfl, ?_, ?_⟩
  · intro h
    obtain ⟨ings, hok, hlen, hget⟩ := mapThrowing_parseIngredient_ok _ h
    refine ⟨{ title := newRecipe.lookup "title"
              source_url := newRecipe.lookup "sourceUrl"
              image_url := newRecipe.lookup "image"
              publisher := newRecipe.lookup "publisher"
              cooking_time := toNumberProp (newRecipe.lookup "cookingTime")
              servings := toNumberProp (newRecipe.lookup "servings")
              ingredients := ings }, ?_, hlen, hget⟩
    simp only [uploadRecipe, parseIngredients, hok]
    split <;> rfl
  · intro h
    simp only [uploadRecipe, parseIngredients, mapThrowing_parseIngredient_error _ h]

/-- C6 on the examples of the specification: `"2,kg,flour"` gives the quantity 2, a blank
quantity gives `null`, and `"2,kg"` fails with the format error before any request is made. -/
theorem uploadRecipe_ingredients_witness :
    (∀ entry ∈ ingredientEntries sampleDraft, (ingArr entry.2).length = 3) ∧
    (∃ payload : Payload,
      (uploadRecipe sampleConfig sampleJSON sampleGateway freshRecipeStore sampleDraft).2.requests
        = [{ url := "https://example.org/api/recipes/?key=k", uploadData := some payload }] ∧
      payload.ingredients.length = 2 ∧
      payload.ingredients[0]? = some
        { quantity := some (.fin 2), unit := "kg", description := "flour" } ∧
      payload.ingredients[1]? = some
        { quantity := none, unit := "kg", description := "flour" }) ∧
    (∃ entry ∈ ingredientEntries sampleBadDraft, (ingArr entry.2).length ≠ 3) ∧
    uploadRecipe sampleConfig sampleJSON sampleGateway freshRecipeStore sampleBadDraft
      = (.error formatError, freshRecipeStore) := by
  have hgood : ∀ entry ∈ ingredientEntries sampleDraft, (ingArr entry.2).length = 3 := by decide
  have hbad : ∃ entry ∈ ingredientEntries sampleBadDraft, (ingArr entry.2).length ≠ 3 := by
    decide
  refine ⟨hgood, ?_, hbad, ?_⟩
  · obtain ⟨payload, hreq, hlen, hget⟩ :=
      (uploadRecipe_ingredients sampleConfig sampleJSON sampleGateway freshRecipeStore
        sampleDraft).2.2.1 hgood
    exact ⟨payload, hreq, hlen,
      hget 0 ("ingredient-1", "2,kg,flour") "2" "kg" "flour" rfl rfl,
      hget 1 ("ingredient-2", " , kg ,flour") "" "kg" "flour" rfl rfl⟩
  · exact (uploadRecipe_ingredients sampleConfig sampleJSON sampleGateway freshRecipeStore
      sampleBadDraft).2.2.2 hbad

/-! ### Pagination markup -/

/-- For a page size that is not zero, `numPages` is the integer `⌈|results| / resultsPerPage⌉`. -/
theorem numPages_of_pos (data : Search) (hr : 0 < data.resultsPerPage) :
    numPages data = .fin ⌈(data.results.length : ℚ) / (data.resultsPerPage : ℚ)⌉ := by
  unfold numPages
  rw [if_neg (by omega)]

/-- C7: for a positive page size and `currentPage ≥ 1`, with
`numPages = ⌈|results| / resultsPerPage⌉`, the markup of the pagination view has no button when
`numPages ≤ 1`; only the next button, for page `currentPage + 1`, when `currentPage = 1` and
`numPages > 1`; only the previous button, for page `currentPage - 1`, when
`currentPage = numPages` and `numPages > 1`; and the previous button followed by the next button
when `1 < currentPage < numPages`. -/
theorem generateMarkup_spec (data : Search) (hr : 0 < data.resultsPerPage)
    (hc : 1 ≤ data.currentPage) :
    (⌈(data.results.length : ℚ) / (data.resultsPerPage : ℚ)⌉ ≤ 1 → _generateMarkup data = []) ∧
    (data.currentPage = 1 → 1 < ⌈(data.results.length : ℚ) / (data.resultsPerPage : ℚ)⌉ →
      _generateMarkup data
        = [{ direction := .next, goto := data.currentPage + 1, label := data.currentPage + 1 }]) ∧
    (data.currentPage = ⌈(data.results.length : ℚ) / (data.resultsPerPage : ℚ)⌉ →
      1 < ⌈(data.results.length : ℚ) / (data.resultsPerPage : ℚ)⌉ →
      _generateMarkup data
        = [{ direction := .prev, goto := data.currentPage - 1, label := data.currentPage - 1 }]) ∧
    (1 < data.currentPage →
      data.currentPage < ⌈(data.results.length : ℚ) / (data.resultsPerPage : ℚ)⌉ →
      _generateMarkup data
        = [{ direction := .prev, goto := data.currentPage - 1, label := data.currentPage - 1 },
           { direction := .next, goto := data.currentPage + 1, label := data.currentPage + 1 }]) := by
  have hn := numPages_of_pos data hr
  generalize ⌈(data.results.length : ℚ) / (data.resultsPerPage : ℚ)⌉ = n at hn ⊢
  refine ⟨?_, ?_, ?_, ?_⟩
  · intro h1
    simp only [_generateMarkup, hn, PageCount.moreThanOne, PageCount.isPage, PageCount.isAfter,
      decide_eq_true_eq]
    rw [if_neg (by omega), if_neg (by omega), if_neg (by omega)]
  · intro h1 h2
    simp only [_generateMarkup, hn, PageCount.moreThanOne, PageCount.isPage, PageCount.isAfter,
      decide_eq_true_eq]
    rw [if_pos ⟨h1, h2⟩]
    rfl
  · intro h1 h2
    simp only [_generateMarkup, hn, PageCount.moreThanOne, PageCount.isPage, PageCount.isAfter,
      decide_eq_true_eq]
    rw [if_neg (by omega), if_pos ⟨h1, h2⟩]
    rfl
  · intro h1 h2
    simp only [_generateMarkup, hn, PageCount.moreThanOne, PageCount.isPage, PageCount.isAfter,
      decide_eq_true_eq]
    rw [if_neg (by omega), if_neg (by omega), if_pos h2]
    rfl

/-- The string `_generateMarkup` returns: empty without a button, the template of the one
button, or the templates of the previous and the next button with a line break between them. -/
theorem markupText_of_buttons (icons : String) (data : Search) :
    (_generateMarkup data = [] → markupText icons data = "") ∧
    (∀ b, _generateMarkup data = [b] → markupText icons data = b.markup icons) ∧
    (∀ a b, _generateMarkup data = [a, b] →
      markupText icons data = a.markup icons ++ "\n" ++ b.markup icons) := by
  refine ⟨?_, ?_, ?_⟩
  · intro h
    simp only [markupText, h]
    rfl
  · intro b h
    simp only [markupText, h]
    rfl
  · intro a b h
    simp only [markupText, h]
    rfl

/-- The number of pages of 23 results, ten per page. -/
theorem ceil_sample (page : Int) :
    ⌈((sampleState 23 page).search.results.length : ℚ)
      / ((sampleState 23 page).search.resultsPerPage : ℚ)⌉ = 3 := by
  have hlen : (sampleState 23 page).search.results.length = 23 := by
    simp [sampleState, sampleResults]
  have hrpp : (sampleState 23 page).search.resultsPerPage = 10 := rfl
  rw [hlen, hrpp, Int.ceil_eq_iff]
  norm_num

/-- C7 on the examples of the specification: 7 results on one page give no button; with 23
results on three pages, page 1 gives the next button for page 2, page 3 the previous button
for page 2, and page 2 both buttons, for pages 1 and 3. -/
theorem generateMarkup_spec_witness :
    _generateMarkup (sampleState 7 1).search = [] ∧
    _generateMarkup (sampleState 23 1).search
      = [{ direction := .next, goto := 2, label := 2 }] ∧
    _generateMarkup (sampleState 23 3).search
      = [{ direction := .prev, goto := 2, label := 2 }] ∧
    _generateMarkup (sampleState 23 2).search
      = [{ direction := .prev, goto := 1, label := 1 },
         { direction := .next, goto := 3, label := 3 }] := by
  refine ⟨?_, ?_, ?_, ?_⟩
  · refine (generateMarkup_spec (sampleState 7 1).search (by decide) (by decide)).1 ?_
    have hlen : (sampleState 7 1).search.results.length = 7 := by
      simp [sampleState, sampleResults]
    have hrpp : (sampleState 7 1).search.resultsPerPage = 10 := rfl
    rw [hlen, hrpp, Int.ceil_le]
    norm_num
  · exact (generateMarkup_spec (sampleState 23 1).search (by decide) (by decide)).2.1 rfl
      (by rw [ceil_sample]; decide)
  · exact (generateMarkup_spec (sampleState 23 3).search (by decide) (by decide)).2.2.1
      (by rw [ceil_sample]; rfl) (by rw [ceil_sample]; decide)
  · exact (generateMarkup_spec (sampleState 23 2).search (by decide) (by decide)).2.2.2
      (by decide) (by rw [ceil_sample]; decide)

/-! ### The page invariant -/

/-- C8, as amended: for a positive page size, the page invariant holds in the initial state and
after a successful `loadSearchResults(query)`, and it is preserved by `getPageSearchResults`
called without an argument or with a page `p` such that
`1 ≤ p ≤ max(1, ⌈|results| / resultsPerPage⌉)`. -/
theorem pageInvariant_preserved (cfg : Config) (ajax : Gateway) (s : Store) :
    (0 < cfg.RESULTS_PER_PAGE → pageInvariant (state cfg).search) ∧
    (∀ query : String, 0 < s.state.search.resultsPerPage →
      (loadSearchResults cfg ajax s query).1 = .ok () →
      pageInvariant (loadSearchResults cfg ajax s query).2.state.search) ∧
    (0 < s.state.search.resultsPerPage → pageInvariant s.state.search →
      pageInvariant (getPageSearchResults s.state none).2.search) ∧
    (∀ p : Int, 0 < s.state.search.resultsPerPage → 1 ≤ p →
      p ≤ max 1 ⌈(s.state.search.results.length : ℚ) / (s.state.search.resultsPerPage : ℚ)⌉ →
      pageInvariant (getPageSearchResults s.state (some p)).2.search) := by
  refine ⟨?_, ?_, ?_, ?_⟩
  · intro _
    exact ⟨le_refl _, le_max_left _ _⟩
  · intro query _ hok
    unfold loadSearchResults at hok ⊢
    dsimp only at hok ⊢
    split at hok
    · exact absurd hok (by simp)
    · exact absurd hok (by simp)
    · exact ⟨le_refl _, le_max_left _ _⟩
  · intro _ hinv
    exact hinv
  · intro p _ h1 h2
    exact ⟨h1, h2⟩

/-- C8 at concrete inputs: the initial state, a search that returns 23 results, and the pages
3 and "current" of 23 results. -/
theorem pageInvariant_preserved_witness :
    pageInvariant (state sampleConfig).search ∧
    pageInvariant (loadSearchResults sampleConfig sampleSearchGateway
      { state := sampleState 23 3, storage := none, requests := [] } "pizza").2.state.search ∧
    pageInvariant (getPageSearchResults (sampleState 23 3) none).2.search ∧
    pageInvariant (getPageSearchResults (sampleState 23 1) (some 3)).2.search := by
  have hinv : pageInvariant (sampleState 23 3).search := by
    unfold pageInvariant
    rw [ceil_sample]
    decide
  exact ⟨(pageInvariant_preserved sampleConfig sampleSearchGateway
      { state := sampleState 23 3, storage := none, requests := [] }).1 (by decide),
    (pageInvariant_preserved sampleConfig sampleSearchGateway
      { state := sampleState 23 3, storage := none, requests := [] }).2.1 "pizza" (by decide) rfl,
    (pageInvariant_preserved sampleConfig sampleSearchGateway
      { state := sampleState 23 3, storage := none, requests := [] }).2.2.1 (by decide) hinv,
    (pageInvariant_preserved sampleConfig sampleSearchGateway
      { state := sampleState 23 1, storage := none, requests := [] }).2.2.2 3 (by decide)
      (by decide) (by
        show (3 : Int) ≤ max 1 ⌈((sampleState 23 1).search.results.length : ℚ)
          / ((sampleState 23 1).search.resultsPerPage : ℚ)⌉
        rw [ceil_sample]
        decide)⟩

/-- C8 as stated fails: with 23 results, ten per page, and `currentPage = 1` the invariant
holds, and `getPageSearchResults(4)` stores `currentPage = 4`, beyond the three pages; and
`getPageSearchResults(0)` stores `currentPage = 0`. -/
theorem pageInvariant_not_preserved :
    pageInvariant (sampleState 23 1).search ∧
    (getPageSearchResults (sampleState 23 1) (some 4)).2.search.currentPage = 4 ∧
    ¬ pageInvariant (getPageSearchResults (sampleState 23 1) (some 4)).2.search ∧
    ¬ pageInvariant (getPageSearchResults (sampleState 23 1) (some 0)).2.search := by
  refine ⟨?_, rfl, ?_, ?_⟩
  · unfold pageInvariant
    rw [ceil_sample]
    decide
  · intro h
    have h2 := h.2
    have hc : (getPageSearchResults (sampleState 23 1) (some 4)).2.search
        = (sampleState 23 4).search := rfl
    rw [hc, ceil_sample] at h2
    revert h2
    decide
  · intro h
    have h1 := h.1
    revert h1
    decide

/-! ### The durable entry -/

/-- The text `JSON.stringify` gives for an array is not the empty text. -/
theorem stringify_ne_empty (J : JSON) (l : List Recipe) : J.stringify l ≠ "" := by
  intro h
  have hlen := congrArg String.length h
  simp only [JSON.stringify, String.length_append] at hlen
  have h1 : "[".length = 1 := rfl
  have h0 : "".length = 0 := rfl
  omega

/-- C9: after `addBookmark`, after `deleteBookmark(id)` for every id, and after a successful
`uploadRecipe`, the durable entry holds `JSON.stringify` of the whole array `state.bookmarks` as
it then is; a fresh store initialised from the entry `JSON.stringify(l)` has, when `JSON.parse`
gives `l` back from that text, the recipes of `l` in the same order as its bookmarks; and a fresh
store initialised from an absent entry has no bookmarks. -/
theorem bookmarks_persisted (cfg : Config) (J : JSON) (ajax : Gateway) (s : Store) :
    (addBookmark J s).storage = some (J.stringify (addBookmark J s).state.bookmarkObjects) ∧
    (∀ id : Option String, (deleteBookmark J s id).storage
      = some (J.stringify (deleteBookmark J s id).state.bookmarkObjects)) ∧
    (∀ newRecipe : List (String × String), (uploadRecipe cfg J ajax s newRecipe).1 = .ok () →
      (uploadRecipe cfg J ajax s newRecipe).2.storage
        = some (J.stringify (uploadRecipe cfg J ajax s newRecipe).2.state.bookmarkObjects)) ∧
    (∀ l : List Recipe, J.parse (J.stringify l) = some l →
      (init J (freshStore cfg (some (J.stringify l)))).1 = .ok () ∧
      (init J (freshStore cfg (some (J.stringify l)))).2.state.bookmarkObjects = l) ∧
    ((init J (freshStore cfg none)).1 = .ok () ∧
      (init J (freshStore cfg none)).2.state.bookmarks = []) := by
  refine ⟨rfl, fun _ => rfl, ?_, ?_, rfl, rfl⟩
  · intro newRecipe hok
    unfold uploadRecipe at hok ⊢
    split at hok
    · exact absurd hok (by simp)
    · dsimp only at hok ⊢
      split at hok
      · exact absurd hok (by simp)
      · exact absurd hok (by simp)
      · rfl
  · intro l hl
    simp only [init, freshStore, if_neg (stringify_ne_empty J l), hl]
    refine ⟨trivial, ?_⟩
    simp only [State.bookmarkObjects, List.map_map]
    conv_rhs => rw [← List.map_id l]
    apply List.map_congr_left
    intro r _
    rfl

/-- C9 on the store with the bookmarks `r2`, `r3`: after bookmarking the active recipe `r1` the
entry is the text of the three bookmarks, a fresh store initialised from it has the same three
recipes in the same order, and a fresh store without an entry has none. -/
theorem bookmarks_persisted_witness :
    (addBookmark sampleJSON sampleBookmarkStore).storage = some "[r2,r3,r1]" ∧
    sampleJSON.parse
        (sampleJSON.stringify (addBookmark sampleJSON sampleBookmarkStore).state.bookmarkObjects)
      = some (addBookmark sampleJSON sampleBookmarkStore).state.bookmarkObjects ∧
    (init sampleJSON (freshStore sampleConfig
        (addBookmark sampleJSON sampleBookmarkStore).storage)).2.state.bookmarkObjects
      = (addBookmark sampleJSON sampleBookmarkStore).state.bookmarkObjects ∧
    (init sampleJSON (freshStore sampleConfig none)).2.state.bookmarks = [] := by
  have hparse : sampleJSON.parse
      (sampleJSON.stringify (addBookmark sampleJSON sampleBookmarkStore).state.bookmarkObjects)
      = some (addBookmark sampleJSON sampleBookmarkStore).state.bookmarkObjects := by
    rfl
  have h := bookmarks_persisted sampleConfig sampleJSON sampleGateway sampleBookmarkStore
  refine ⟨by decide, hparse, ?_, h.2.2.2.2.2⟩
  rw [h.1]
  exact (h.2.2.2.1 _ hparse).2

/-! ### The incremental renderer -/

/-- Writing back the element that is already there changes nothing. -/
theorem set_of_getElem? {α : Type} (l : List α) (i : Nat) (a : α) (h : l[i]? = some a) :
    l.set i a = l := by
  induction l generalizing i with
  | nil => rfl
  | cons x xs ih =>
    cases i with
    | zero =>
      simp only [List.getElem?_cons_zero, Option.some.injEq] at h
      subst h
      rfl
    | succ k =>
      simp only [List.getElem?_cons_succ] at h
      simp only [List.set_cons_succ, ih k h]

/-- The method `setAttribute` leaves the tag and the children of the element. -/
theorem foldl_setAttribute_tag_children (attrs : List (String × String)) (el : Element) :
    (attrs.foldl Element.setAttribute el).tag = el.tag ∧
    (attrs.foldl Element.setAttribute el).children = el.children := by
  induction attrs generalizing el with
  | nil => exact ⟨rfl, rfl⟩
  | cons a as ih =>
    simp only [List.foldl_cons]
    exact ⟨(ih _).1.trans rfl, (ih _).2.trans rfl⟩

/-- After `setAttribute(name, value)` the element has the attribute with that value. -/
theorem mem_setAttribute_self (el : Element) (a : String × String) :
    a ∈ (el.setAttribute a).attributes := by
  simp only [Element.setAttribute]
  split_ifs with h
  · rw [List.any_eq_true] at h
    obtain ⟨x, hx, hname⟩ := h
    rw [List.mem_map]
    exact ⟨x, hx, by simp only [decide_eq_true_eq] at hname; rw [if_pos hname]⟩
  · simp

/-- The method `setAttribute` keeps the attributes of other names. -/
theorem mem_setAttribute_of_ne (el : Element) (a b : String × String)
    (hb : b ∈ el.attributes) (hne : b.1 ≠ a.1) : b ∈ (el.setAttribute a).attributes := by
  simp only [Element.setAttribute]
  split_ifs with h
  · rw [List.mem_map]
    exact ⟨b, hb, by rw [if_neg hne]⟩
  · simp [hb]

/-- Setting attributes of other names keeps an attribute. -/
theorem mem_foldl_setAttribute_of_ne (attrs : List (String × String)) (el : Element)
    (b : String × String) (hb : b ∈ el.attributes) (hne : ∀ a ∈ attrs, b.1 ≠ a.1) :
    b ∈ (attrs.foldl Element.setAttribute el).attributes := by
  induction attrs generalizing el with
  | nil => exact hb
  | cons a as ih =>
    simp only [List.foldl_cons]
    exact ih _ (mem_setAttribute_of_ne el a b hb (hne a (List.mem_cons_self _ _)))
      (fun x hx => hne x (List.mem_cons_of_mem _ hx))

/-- After setting a list of attributes with distinct names, the element has each of them. -/
theorem mem_foldl_setAttribute (attrs : List (String × String)) (el : Element)
    (hnd : (attrs.map Prod.fst).Nodup) :
    ∀ a ∈ attrs, a ∈ (attrs.foldl Element.setAttribute el).attributes := by
  induction attrs generalizing el with
  | nil => intro a ha; simp at ha
  | cons x xs ih =>
    simp only [List.map_cons, List.nodup_cons] at hnd
    intro a ha
    simp only [List.foldl_cons]
    rcases List.mem_cons.1 ha with rfl | ha
    · apply mem_foldl_setAttribute_of_ne _ _ _ (mem_setAttribute_self el a)
      intro y hy heq
      exact hnd.1 (List.mem_map.2 ⟨y, hy, heq.symm⟩)
    · exact ih _ hnd.2 a ha

/-- A new element that is structurally equal to the current one has its attributes on it. -/
theorem attributes_of_isEqualNode (h : Heap) (n : Node) (i : Nat) (el : Element)
    (hi : h[i]? = some el) (heq : isEqualNode h n i = true) :
    ∀ a ∈ n.attributes, a ∈ el.attributes := by
  cases n with
  | element tag attributes children =>
    simp only [isEqualNode, isEqualChild, hi, Bool.and_eq_true, sameAttributes,
      List.all_eq_true] at heq
    intro a ha
    have := heq.1.2.2 a ha
    simpa using this
  | text data => intro a ha; simp [Node.attributes] at ha
  | comment data => intro a ha; simp [Node.attributes] at ha

/-- A pair that is structurally equal: the callback of `update` writes nothing. -/
theorem updateElement_of_isEqualNode (h : Heap) (n : Node) (i : Nat)
    (heq : isEqualNode h n i = true) : updateElement h n i = (.ok (), h) := by
  unfold updateElement
  simp only [heq, Bool.not_true, Bool.false_and]
  cases hi : h[i]? with
  | none => simp
  | some curr =>
    simp only [Bool.false_eq_true, if_false]
    rw [set_of_getElem? h i curr hi]
    simp [heq, set_of_getElem? h i curr hi]

/-- The callback of `update` on the pair of the new element `n` and the current element at
index `i`: what it leaves in the array. -/
theorem updateElement_step (h : Heap) (n : Node) (i : Nat) (curr : Element)
    (hi : h[i]? = some curr) :
    (updateElement h n i).1 = .ok () ∧
    (updateElement h n i).2.length = h.length ∧
    (∀ j, j ≠ i → (updateElement h n i).2[j]? = h[j]?) ∧
    ∃ curr', (updateElement h n i).2[i]? = some curr' ∧ curr'.tag = curr.tag ∧
      (isEqualNode h n i = false → (∃ t, firstChildText n = some t ∧ t ≠ "") →
        curr'.children = textChildren n.textContent) ∧
      (¬ (isEqualNode h n i = false ∧ ∃ t, firstChildText n = some t ∧ t ≠ "") →
        curr'.children = curr.children) ∧
      (isEqualNode h n i = false → (n.attributes.map Prod.fst).Nodup →
        ∀ a ∈ n.attributes, a ∈ curr'.attributes) ∧
      (isEqualNode h n i = true → curr' = curr) := by
  have hlt : i < h.length := (List.getElem?_eq_some.1 hi).1
  -- the element after the text step
  obtain ⟨mid, hmid, hmidtag, hmidattr, hmidyes, hmidno⟩ : ∃ mid : Element,
      mid = (if (!isEqualNode h n i && ((firstChildText n).isSome
              && firstChildText n != some "")) = true
            then curr.setTextContent n.textContent else curr) ∧
      mid.tag = curr.tag ∧ mid.attributes = curr.attributes ∧
      (isEqualNode h n i = false → (∃ t, firstChildText n = some t ∧ t ≠ "") →
        mid.children = textChildren n.textContent) ∧
      (¬ (isEqualNode h n i = false ∧ ∃ t, firstChildText n = some t ∧ t ≠ "") →
        mid.children = curr.children) := by
    refine ⟨_, rfl, ?_, ?_, ?_, ?_⟩
    · split_ifs <;> rfl
    · split_ifs <;> rfl
    · rintro hne ⟨t, ht, htne⟩
      rw [if_pos (by simp [hne, ht, htne])]
      rfl
    · intro hnot
      rw [if_neg]
      intro hc
      apply hnot
      simp only [Bool.and_eq_true, Bool.not_eq_true', bne_iff_ne, ne_eq] at hc
      refine ⟨hc.1, ?_⟩
      obtain ⟨t, ht⟩ := Option.isSome_iff_exists.1 hc.2.1
      exact ⟨t, ht, fun htempty => hc.2.2 (by rw [ht, htempty])⟩
  have hres : updateElement h n i = (.ok (), h.set i
      (if (!isEqualNode (h.set i mid) n i) = true
        then n.attributes.foldl Element.setAttribute mid else mid)) := by
    unfold updateElement
    simp only [hi]
    rw [← hmid, List.set_set]
  rw [hres]
  refine ⟨rfl, by simp, ?_, ?_⟩
  · intro j hj
    exact List.getElem?_set_ne (Ne.symm hj)
  · refine ⟨_, List.getElem?_set_self hlt, ?_, ?_, ?_, ?_, ?_⟩
    · split_ifs
      · rw [(foldl_setAttribute_tag_children _ _).1, hmidtag]
      · exact hmidtag
    · intro hne hex
      split_ifs
      · rw [(foldl_setAttribute_tag_children _ _).2]
        exact hmidyes hne hex
      · exact hmidyes hne hex
    · intro hnot
      split_ifs
      · rw [(foldl_setAttribute_tag_children _ _).2]
        exact hmidno hnot
      · exact hmidno hnot
    · intro _ hnd
      split_ifs with hsecond
      · exact mem_foldl_setAttribute _ _ hnd
      · have heq2 : isEqualNode (h.set i mid) n i = true := by
          simpa using hsecond
        exact attributes_of_isEqualNode (h.set i mid) n i mid (List.getElem?_set_self hlt) heq2
    · intro heq
      have hmidcurr : mid = curr := by
        rw [hmid, if_neg (by simp [heq])]
      subst hmidcurr
      rw [set_of_getElem? h i mid hi, if_neg (by simp [heq])]

/-- On an array that has an element for every new element, the loop of `update` completes and
keeps the number of elements. -/
theorem updateFrom_complete (news : List Node) (h : Heap) (i : Nat)
    (hlen : i + news.length ≤ h.length) :
    (updateFrom h i news).1 = .ok () ∧ (updateFrom h i news).2.length = h.length := by
  induction news generalizing h i with
  | nil => exact ⟨rfl, rfl⟩
  | cons n rest ih =>
    simp only [List.length_cons] at hlen
    have hlt : i < h.length := by omega
    obtain ⟨hok, hl, _⟩ := updateElement_step h n i h[i] (List.getElem?_eq_getElem hlt)
    unfold updateFrom
    generalize updateElement h n i = r at hok hl
    obtain ⟨out, h2⟩ := r
    cases out with
    | error err => simp at hok
    | ok u =>
      simp only at hl ⊢
      have := ih h2 (i + 1) (by omega)
      exact ⟨this.1, this.2.trans hl⟩

/-- When every pair is structurally equal, the loop of `update` writes nothing. -/
theorem updateFrom_of_all_equal (news : List Node) (h : Heap) (i : Nat)
    (heq : ∀ k n, news[k]? = some n → isEqualNode h n (i + k) = true) :
    updateFrom h i news = (.ok (), h) := by
  induction news generalizing i with
  | nil => rfl
  | cons n rest ih =>
    unfold updateFrom
    rw [updateElement_of_isEqualNode h n i (by simpa using heq 0 n (List.getElem?_cons_zero))]
    simp only
    apply ih
    intro k m hk
    have := heq (k + 1) m (by simpa using hk)
    rw [show i + 1 + k = i + (k + 1) by omega]
    exact this

mutual
/-- There are as many element objects as elements in and below a node. -/
theorem length_recordsOf : ∀ (n : Node) (s : Nat), (recordsOf s n).length = (elementsOf n).length
  | .element tag attributes children, s => by
    simp only [recordsOf, elementsOf, List.length_cons, length_recordsOfList children (s + 1)]
  | .text _, _ => rfl
  | .comment _, _ => rfl
/-- There are as many element objects as elements in and below the nodes of a list. -/
theorem length_recordsOfList : ∀ (ns : List Node) (s : Nat),
    (recordsOfList s ns).length = (elementsOfList ns).length
  | [], _ => rfl
  | n :: ns, s => by
    simp only [recordsOfList, elementsOfList, List.length_append, length_recordsOf n s,
      length_recordsOfList ns (s + (elementsOf n).length)]
end

/-- Equality of an attribute list with itself. -/
theorem sameAttributes_self (a : List (String × String)) : sameAttributes a a = true := by
  simp only [sameAttributes, decide_True, Bool.true_and, List.all_eq_true]
  intro x hx
  simpa using hx

mutual
/-- A node is structurally equal to the child that stands for it in any array that holds its
element objects from the index `s` on. -/
theorem isEqualChild_refOf : ∀ (n : Node) (s : Nat) (h : Heap),
    (∀ j, j < (recordsOf s n).length → h[s + j]? = (recordsOf s n)[j]?) →
    isEqualChild h n (refOf s n) = true
  | .element tag attributes children, s, h, hp => by
    have h0 := hp 0 (by simp [recordsOf])
    simp only [recordsOf, Nat.add_zero, List.getElem?_cons_zero] at h0
    simp only [refOf, isEqualChild, h0, decide_True, Bool.true_and, sameAttributes_self]
    apply isEqualChildren_childRefs children (s + 1) h
    intro j hj
    have := hp (j + 1) (by simp only [recordsOf, List.length_cons]; omega)
    simp only [recordsOf, List.getElem?_cons_succ] at this
    rw [← this]
    congr 1
    omega
  | .text _, _, _, _ => by simp [refOf, isEqualChild]
  | .comment _, _, _, _ => by simp [refOf, isEqualChild]
/-- The nodes of a list are pairwise structurally equal to the children that stand for them. -/
theorem isEqualChildren_childRefs : ∀ (ns : List Node) (s : Nat) (h : Heap),
    (∀ j, j < (recordsOfList s ns).length → h[s + j]? = (recordsOfList s ns)[j]?) →
    isEqualChildren h ns (childRefs s ns) = true
  | [], _, _, _ => rfl
  | n :: ns, s, h, hp => by
    simp only [childRefs, isEqualChildren, Bool.and_eq_true]
    constructor
    · apply isEqualChild_refOf n s h
      intro j hj
      have := hp j (by simp only [recordsOfList, List.length_append]; omega)
      rw [this]
      simp only [recordsOfList]
      rw [List.getElem?_append_left hj]
    · apply isEqualChildren_childRefs ns (s + (elementsOf n).length) h
      intro j hj
      have := hp ((elementsOf n).length + j)
        (by simp only [recordsOfList, List.length_append, length_recordsOf]; omega)
      rw [← Nat.add_assoc] at this
      rw [this]
      simp only [recordsOfList]
      rw [List.getElem?_append_right (by rw [length_recordsOf]; omega), length_recordsOf]
      congr 1
      omega
end

mutual
/-- Where the element objects of the `k`-th element in or below a node lie among the element
objects of the node. -/
theorem recordsOf_at : ∀ (m : Node) (s k : Nat) (n : Node), (elementsOf m)[k]? = some n →
    ∀ j, j < (recordsOf (s + k) n).length → (recordsOf s m)[k + j]? = (recordsOf (s + k) n)[j]?
  | .element tag attributes children, s, k, n, hk, j, hj => by
    cases k with
    | zero =>
      simp only [elementsOf, List.getElem?_cons_zero, Option.some.injEq] at hk
      subst hk
      simp
    | succ k =>
      simp only [elementsOf, List.getElem?_cons_succ] at hk
      have := recordsOfList_at children (s + 1) k n hk j
        (by rw [show s + 1 + k = s + (k + 1) by omega]; exact hj)
      rw [show s + 1 + k = s + (k + 1) by omega] at this
      rw [← this]
      simp only [recordsOf]
      rw [show k + 1 + j = (k + j) + 1 by omega, List.getElem?_cons_succ]
  | .text _, _, _, _, hk, _, _ => by simp [elementsOf] at hk
  | .comment _, _, _, _, hk, _, _ => by simp [elementsOf] at hk
/-- Where the element objects of the `k`-th element in or below the nodes of a list lie among
the element objects of the list. -/
theorem recordsOfList_at : ∀ (ms : List Node) (s k : Nat) (n : Node),
    (elementsOfList ms)[k]? = some n →
    ∀ j, j < (recordsOf (s + k) n).length →
      (recordsOfList s ms)[k + j]? = (recordsOf (s + k) n)[j]?
  | [], _, _, _, hk, _, _ => by simp [elementsOfList] at hk
  | m :: ms, s, k, n, hk, j, hj => by
    simp only [elementsOfList] at hk
    simp only [recordsOfList]
    by_cases hlt : k < (elementsOf m).length
    · rw [List.getElem?_append_left hlt] at hk
      have := recordsOf_at m s k n hk j hj
      have hsome : (recordsOf (s + k) n)[j]? = some ((recordsOf (s + k) n)[j]) :=
        List.getElem?_eq_getElem hj
      have hlt2 : k + j < (recordsOf s m).length := by
        rw [hsome] at this
        exact (List.getElem?_eq_some.1 this).1
      rw [List.getElem?_append_left hlt2]
      exact this
    · rw [List.getElem?_append_right (by omega)] at hk
      have := recordsOfList_at ms (s + (elementsOf m).length) (k - (elementsOf m).length) n hk j
        (by rw [show s + (elementsOf m).length + (k - (elementsOf m).length) = s + k by omega]
            exact hj)
      rw [show s + (elementsOf m).length + (k - (elementsOf m).length) = s + k by omega] at this
      rw [List.getElem?_append_right (by rw [length_recordsOf]; omega), length_recordsOf,
        ← this]
      congr 1
      omega
end

mutual
/-- The nodes `elementsOf` lists are elements. -/
theorem refOf_of_mem_elementsOf : ∀ (m n : Node) (k : Nat), n ∈ elementsOf m →
    refOf k n = .element k
  | .element tag attributes children, n, k, hn => by
    simp only [elementsOf, List.mem_cons] at hn
    rcases hn with rfl | hn
    · rfl
    · exact refOf_of_mem_elementsOfList children n k hn
  | .text _, _, _, hn => by simp [elementsOf] at hn
  | .comment _, _, _, hn => by simp [elementsOf] at hn
/-- The nodes `elementsOfList` lists are elements. -/
theorem refOf_of_mem_elementsOfList : ∀ (ms : List Node) (n : Node) (k : Nat),
    n ∈ elementsOfList ms → refOf k n = .element k
  | [], _, _, hn => by simp [elementsOfList] at hn
  | m :: ms, n, k, hn => by
    simp only [elementsOfList, List.mem_append] at hn
    rcases hn with hn | hn
    · exact refOf_of_mem_elementsOf m n k hn
    · exact refOf_of_mem_elementsOfList ms n k hn
end

/-- In a render target that holds the nodes of the new fragment, every new element is
structurally equal to the current element of the same index. -/
theorem isEqualNode_renderTarget (nodes : List Node) (k : Nat) (n : Node)
    (hk : (querySelectorAll nodes)[k]? = some n) :
    isEqualNode (renderTarget nodes) n k = true := by
  have href : refOf k n = .element k :=
    refOf_of_mem_elementsOfList nodes n k (List.getElem?_mem hk)
  unfold isEqualNode
  rw [← href]
  apply isEqualChild_refOf
  intro j hj
  have := recordsOfList_at nodes 0 k n hk j (by rw [Nat.zero_add]; exact hj)
  rw [Nat.zero_add] at this
  exact this

/-- C10, as amended: `update` takes the new elements in document order, the `k`-th with the
`k`-th current element, and writes to no other current element.  For each pair: the children of
the current element are replaced by the text content of the new element exactly when the two
are not structurally equal and the first child of the new element is a text or comment node
whose value is not empty after trimming (whether or not the two text contents differ); when
the two are not structurally equal, every attribute of the new element (whose attribute names
are distinct) is on the current element afterwards; a pair that is structurally equal leaves the
current element as it is.  On
sequences of equal length the update completes; when every pair is structurally equal it
changes nothing, and so an update whose new markup is the tree the render target holds changes
nothing. -/
theorem update_spec :
    (∀ (h : Heap) (i : Nat) (n : Node) (rest : List Node) (curr : Element),
      h[i]? = some curr →
      updateFrom h i (n :: rest) = updateFrom (updateElement h n i).2 (i + 1) rest) ∧
    (∀ (h : Heap) (n : Node) (i : Nat) (curr : Element), h[i]? = some curr →
      (updateElement h n i).1 = .ok () ∧
      (updateElement h n i).2.length = h.length ∧
      (∀ j, j ≠ i → (updateElement h n i).2[j]? = h[j]?) ∧
      ∃ curr', (updateElement h n i).2[i]? = some curr' ∧ curr'.tag = curr.tag ∧
        (isEqualNode h n i = false → (∃ t, firstChildText n = some t ∧ t ≠ "") →
          curr'.children = textChildren n.textContent) ∧
        (¬ (isEqualNode h n i = false ∧ ∃ t, firstChildText n = some t ∧ t ≠ "") →
          curr'.children = curr.children) ∧
        (isEqualNode h n i = false → (n.attributes.map Prod.fst).Nodup →
          ∀ a ∈ n.attributes, a ∈ curr'.attributes) ∧
        (isEqualNode h n i = true → curr' = curr)) ∧
    (∀ (newDOM : List Node) (h : Heap), (querySelectorAll newDOM).length = h.length →
      (update newDOM h).1 = .ok () ∧ (update newDOM h).2.length = h.length) ∧
    (∀ (newDOM : List Node) (h : Heap),
      (∀ k n, (querySelectorAll newDOM)[k]? = some n → isEqualNode h n k = true) →
      update newDOM h = (.ok (), h)) ∧
    (∀ newDOM : List Node,
      update newDOM (renderTarget newDOM) = (.ok (), renderTarget newDOM)) := by
  refine ⟨?_, updateElement_step, ?_, ?_, ?_⟩
  · intro h i n rest curr hi
    have hok := (updateElement_step h n i curr hi).1
    conv_lhs => unfold updateFrom
    generalize updateElement h n i = r at hok
    obtain ⟨out, h2⟩ := r
    cases out with
    | error err => simp at hok
    | ok u => rfl
  · intro newDOM h hlen
    exact updateFrom_complete _ h 0 (by omega)
  · intro newDOM h heq
    exact updateFrom_of_all_equal _ h 0 (by simpa using heq)
  · intro newDOM
    exact updateFrom_of_all_equal _ _ 0
      (by simpa using isEqualNode_renderTarget newDOM)

/-- C10 at concrete inputs: on `<span class="n" data-v="4">4</span>` and the new
`<span class="n" data-v="5">5</span>` the text becomes `5` and the attribute `data-v` becomes
`5`; on a render target equal to the new markup nothing changes; on the example with an inner
element the update completes. -/
theorem update_spec_witness :
    (∃ curr', (updateElement sampleSpanElements sampleNewSpan 0).2[0]? = some curr' ∧
      curr'.tag = "span" ∧ curr'.children = [Child.text "5"] ∧
      ("data-v", "5") ∈ curr'.attributes) ∧
    (update sampleNewDOM sampleCurrElements).1 = .ok () ∧
    update sampleNewDOM sampleSameElements = (.ok (), sampleSameElements) ∧
    renderTarget sampleNewDOM = sampleSameElements := by
  refine ⟨?_, ?_, ?_, by decide⟩
  · obtain ⟨curr', hget, htag, htext, _, hattr, _⟩ :=
      (update_spec.2.1 sampleSpanElements sampleNewSpan 0
        { tag := "span", attributes := [("class", "n"), ("data-v", "4")],
          children := [.text "4"] } rfl).2.2.2
    exact ⟨curr', hget, htag, htext (by decide) ⟨"5", rfl, by decide⟩,
      hattr (by decide) (by decide) ("data-v", "5") (by decide)⟩
  · exact (update_spec.2.2.1 sampleNewDOM sampleCurrElements (by decide)).1
  · apply update_spec.2.2.2.1 sampleNewDOM sampleSameElements
    intro k n hk
    match k, hk with
    | 0, hk =>
      simp only [querySelectorAll, sampleNewDOM, elementsOfList, elementsOf, List.append_nil,
        List.cons_append, List.nil_append, List.getElem?_cons_zero, Option.some.injEq] at hk
      subst hk
      decide
    | 1, hk =>
      simp only [querySelectorAll, sampleNewDOM, elementsOfList, elementsOf, List.append_nil,
        List.cons_append, List.nil_append, List.getElem?_cons_succ, List.getElem?_cons_zero,
        Option.some.injEq] at hk
      subst hk
      decide
    | k + 2, hk =>
      simp [querySelectorAll, sampleNewDOM, elementsOfList, elementsOf] at hk

/-- C10 as stated fails: the new `<p class="b">Hello <b>world</b></p>` and the current
`<p class="a">Hello <b>world</b></p>` give element sequences of equal length, the text content
of the new `p` is not empty after trimming and equals that of the current `p`, and still the
children of the current `p`, a text node and the element `b`, are replaced by the one text node
`Hello world`. -/
theorem update_replaces_equal_text :
    (querySelectorAll sampleNewDOM).length = sampleCurrElements.length ∧
    (querySelectorAll sampleNewDOM)[0]?.map Node.textContent = some "Hello world" ∧
    Heap.textContent sampleCurrElements 0 = "Hello world" ∧
    trim "Hello world" ≠ "" ∧
    sampleCurrElements[0]?.map Element.children
      = some [Child.text "Hello ", Child.element 1] ∧
    (update sampleNewDOM sampleCurrElements).2[0]?.map Element.children
      = some [Child.text "Hello world"] := by
  refine ⟨by decide, by decide, by decide, by decide, by decide, by decide⟩

end Forkify
